import Mathlib

/-!
Shallow embedding of the segregated-free-list allocator in src/mm.c.

Memory is modelled byte by byte as a function from addresses (natural
numbers) to byte values.  The managed region starts at address 16 (the
value returned by the first call of the sbrk primitive) and ends just
below the break.  The sbrk primitive is modelled with an explicit limit:
a request succeeds exactly when the new break still fits below the
limit, which captures the only failure mode the C driver exposes.

The 8-byte bit-field struct named divider is modelled as a record of its
five fields together with an encoder and decoder to and from the 64-bit
word actually stored in memory (size in the 60 low bits, then the four
flag bits, matching the declaration order of the C bit-field).  Values of
C type size_t and uint64_t are carried as natural numbers; wherever the C
code can wrap around 2 to the 64 the model reduces modulo 2 to the 64
explicitly (see usub64 and the size computations).  The pointer NULL is
the address 0.

The while loop of find_free_space walks an in-memory linked list, so its
model takes explicit fuel; the public entry points pass the current
break as fuel, which dominates the length of every null-terminated list
that fits in the heap (nodes are at least 32 bytes apart).
-/

namespace MM

/-- Byte load: C memory holds bytes, so values are reduced modulo 256. -/
def loadByte (m : Nat → Nat) (a : Nat) : Nat := m a % 256

/-- Byte store. -/
def storeByte (m : Nat → Nat) (a v : Nat) : Nat → Nat :=
  fun x => if x = a then v % 256 else m x

/-- Load of a 64-bit little-endian word at address a. -/
def loadW (m : Nat → Nat) (a : Nat) : Nat :=
  loadByte m a
  + 256 * (loadByte m (a + 1)
  + 256 * (loadByte m (a + 2)
  + 256 * (loadByte m (a + 3)
  + 256 * (loadByte m (a + 4)
  + 256 * (loadByte m (a + 5)
  + 256 * (loadByte m (a + 6)
  + 256 * loadByte m (a + 7)))))))

/-- Store of a 64-bit little-endian word at address a. -/
def storeW (m : Nat → Nat) (a v : Nat) : Nat → Nat :=
  storeByte (storeByte (storeByte (storeByte (storeByte (storeByte (storeByte (storeByte
    m a v) (a + 1) (v / 256)) (a + 2) (v / 256 ^ 2)) (a + 3) (v / 256 ^ 3))
    (a + 4) (v / 256 ^ 4)) (a + 5) (v / 256 ^ 5)) (a + 6) (v / 256 ^ 6)) (a + 7) (v / 256 ^ 7)

/-- Subtraction of 64-bit unsigned integers, wrapping as in C. -/
def usub64 (a b : Nat) : Nat := (a + 2 ^ 64 - b % 2 ^ 64) % 2 ^ 64

/-- The divider struct of mm.c: a 60-bit size and four status bits. -/
structure Divider where
  size : Nat
  alloc : Bool
  prev_alloc : Bool
  next_alloc : Bool
  epilogue : Bool
deriving DecidableEq

/-- The constructor make_divider of mm.c; the size field is a 60-bit
bit-field, so it is truncated on construction exactly as the C assignment
truncates it. -/
def make_divider (size : Nat) (alloc prev_alloc next_alloc epilogue : Bool) : Divider :=
  ⟨size % 2 ^ 60, alloc, prev_alloc, next_alloc, epilogue⟩

def boolBit (b : Bool) : Nat := if b then 1 else 0

/-- Encoding of a divider into the 64-bit word stored in memory: size in
the 60 low bits, then alloc, prev_alloc, next_alloc, epilogue. -/
def encodeDiv (d : Divider) : Nat :=
  d.size % 2 ^ 60
  + 2 ^ 60 * (boolBit d.alloc + 2 * (boolBit d.prev_alloc
  + 2 * (boolBit d.next_alloc + 2 * boolBit d.epilogue)))

/-- Decoding of a 64-bit word into a divider. -/
def decodeDiv (v : Nat) : Divider :=
  ⟨v % 2 ^ 60,
   decide (v / 2 ^ 60 % 2 = 1),
   decide (v / 2 ^ 61 % 2 = 1),
   decide (v / 2 ^ 62 % 2 = 1),
   decide (v / 2 ^ 63 % 2 = 1)⟩

/-- Reading the divider stored at address a. -/
def readDiv (m : Nat → Nat) (a : Nat) : Divider := decodeDiv (loadW m a)

/-- Writing a divider at address a. -/
def writeDiv (m : Nat → Nat) (a : Nat) (d : Divider) : Nat → Nat :=
  storeW m a (encodeDiv d)

/-- DIVIDER_SIZE of mm.c. -/
def DIVIDER_SIZE : Nat := 8

/-- The global heap pointer of mm.c: the base address handed out by the
first sbrk call, fixed at 16 in this model. -/
def heap : Nat := 16

/-- Allocator state: the byte memory, the current break (one past the
last reserved byte), the sbrk limit, and the six free-list heads (the
global array free_lists, holding free_block pointers, 0 for NULL). -/
structure HeapState where
  mem : Nat → Nat
  brk : Nat
  limit : Nat
  freeLists : Fin 6 → Nat

/-- The sbrk primitive of memlib: extends the reserved region by n bytes
and returns the old break, or fails when the limit would be exceeded. -/
def mm_sbrk (st : HeapState) (n : Nat) : Option Nat × HeapState :=
  if st.brk + n ≤ st.limit then (some st.brk, { st with brk := st.brk + n }) else (none, st)

/-- The in_heap check of mm.c: p is at most mm_heap_hi (the last byte,
one below the break) and at least mm_heap_lo (the heap base). -/
def in_heap (st : HeapState) (p : Nat) : Bool :=
  decide (p ≤ st.brk - 1 ∧ heap ≤ p)

/-- The align helper of mm.c: raises to the next multiple of 16; the
intermediate sum is a size_t and so wraps modulo 2 to the 64. -/
def align (x : Nat) : Nat :=
  16 * ((x + 16 - 1) % 2 ^ 64 / 16) % 2 ^ 64

/-- footer_from_header: the footer sits size minus 8 bytes after the
header, where size is read from the header in memory. -/
def footer_from_header (m : Nat → Nat) (h : Nat) : Nat :=
  h + (readDiv m h).size - DIVIDER_SIZE

/-- header_from_data of mm.c. -/
def header_from_data (p : Nat) : Nat := p - DIVIDER_SIZE

/-- data_from_header of mm.c. -/
def data_from_header (h : Nat) : Nat := h + DIVIDER_SIZE

/-- header_to_header: start of the next block, by the size in memory. -/
def header_to_header (m : Nat → Nat) (h : Nat) : Nat :=
  h + (readDiv m h).size

/-- free_block_from_header of mm.c. -/
def free_block_from_header (h : Nat) : Nat := h + DIVIDER_SIZE

/-- header_from_free_block of mm.c. -/
def header_from_free_block (b : Nat) : Nat := b - DIVIDER_SIZE

/-- The global array free_list_sizes of mm.c. -/
def free_list_sizes : List Nat := [32, 48, 64, 96, 2916]

/-- find_free_list of mm.c, returning the index of the chosen list: the
loop over the five thresholds unrolled, with index 5 as the catch-all. -/
def find_free_list (size : Nat) : Fin 6 :=
  if size ≤ 32 then 0 else if size ≤ 48 then 1 else if size ≤ 64 then 2
  else if size ≤ 96 then 3 else if size ≤ 2916 then 4 else 5

/-- add_to_free_list of mm.c: pushes the free block at header h on the
head of the list selected by its current size.  The free_block struct
lives at h + 8 with the prev pointer first and the next pointer 8 bytes
later; the old head, when non-null, gets its prev pointer set. -/
def add_to_free_list (st : HeapState) (h : Nat) : HeapState :=
  let fl := find_free_list ((readDiv st.mem h).size)
  let nfb := free_block_from_header h
  let m0 := storeW st.mem nfb 0
  let m1 := storeW m0 (nfb + 8) (st.freeLists fl)
  let m2 := if st.freeLists fl ≠ 0 then storeW m1 (st.freeLists fl) nfb else m1
  { st with mem := m2, freeLists := fun i => if i = fl then nfb else st.freeLists i }

/-- remove_from_free_list of mm.c: splices the block out through its
in-payload prev and next pointers; when prev is NULL the code scans all
six heads and resets every list whose head is this block. -/
def remove_from_free_list (st : HeapState) (h : Nat) : HeapState :=
  let cfb := free_block_from_header h
  let pfb := loadW st.mem cfb
  let nfb := loadW st.mem (cfb + 8)
  let st1 :=
    if pfb ≠ 0 then { st with mem := storeW st.mem (pfb + 8) nfb }
    else { st with freeLists := fun i => if st.freeLists i = cfb then nfb else st.freeLists i }
  if nfb ≠ 0 then { st1 with mem := storeW st1.mem nfb pfb } else st1

/-- mm_init of mm.c: sbrk 16 bytes, write the prologue divider at the
base and the epilogue divider 8 bytes later, clear the six lists. -/
def mm_init (m0 : Nat → Nat) (limit : Nat) : Option HeapState :=
  let st0 : HeapState := ⟨m0, heap, limit, fun _ => 0⟩
  match mm_sbrk st0 (2 * DIVIDER_SIZE) with
  | (none, _) => none
  | (some hp, st1) =>
    let m1 := writeDiv st1.mem hp (make_divider DIVIDER_SIZE true true true false)
    let m2 := writeDiv m1 (hp + DIVIDER_SIZE) (make_divider 0 true true true true)
    some { st1 with mem := m2, freeLists := fun _ => 0 }

/-- change_alloc of mm.c, statement by statement: write the dummy into
the header; if the block is now free, duplicate it into the footer;
refresh the prev_alloc bit of the next block (and its footer when that
block is free and not the epilogue); when the previous block is free,
refresh the next_alloc bit in its footer and copy the footer back to its
header, located through the size stored in the footer. -/
def change_alloc (st : HeapState) (h : Nat) (dummy : Divider) : HeapState :=
  let m0 := writeDiv st.mem h dummy
  let m1 :=
    if !(readDiv m0 h).alloc then writeDiv m0 (footer_from_header m0 h) dummy else m0
  let nh := header_to_header m1 h
  let nd := readDiv m1 nh
  let m2 := writeDiv m1 nh
    (make_divider nd.size nd.alloc (readDiv m1 h).alloc nd.next_alloc nd.epilogue)
  let nd2 := readDiv m2 nh
  let m3 :=
    if !nd2.epilogue && !nd2.alloc then writeDiv m2 (footer_from_header m2 nh) nd2 else m2
  let m4 :=
    if !(readDiv m3 h).prev_alloc then
      let pfa := h - DIVIDER_SIZE
      let pf := readDiv m3 pfa
      let m := writeDiv m3 pfa
        (make_divider pf.size pf.alloc pf.prev_alloc (readDiv m3 h).alloc pf.epilogue)
      let ph := pfa - (readDiv m pfa).size + DIVIDER_SIZE
      writeDiv m ph (readDiv m pfa)
    else m3
  { st with mem := m4 }

/-- split of mm.c: carve an allocated prefix of the requested size out of
the block at h, build the free suffix header and duplicate it into the
old footer, run change_alloc on both halves, push the suffix on its free
list, and return the suffix header. -/
def split (st : HeapState) (h size : Nat) : Nat × HeapState :=
  let old := readDiv st.mem h
  let old_footer := footer_from_header st.mem h
  let m0 := writeDiv st.mem h (make_divider size true old.prev_alloc false old.epilogue)
  let remaining := usub64 old.size size
  let nh := header_to_header m0 h
  let m1 := writeDiv m0 nh
    (make_divider remaining false (readDiv m0 h).alloc old.next_alloc (readDiv m0 h).epilogue)
  let m2 := writeDiv m1 old_footer (readDiv m1 nh)
  let st1 := change_alloc { st with mem := m2 } h (readDiv m2 h)
  let st2 := change_alloc st1 nh (readDiv st1.mem nh)
  let st3 := add_to_free_list st2 nh
  (nh, st3)

/-- The best-fit margin test of find_free_space.  The C source compares
csize against size plus size times the double constant 0.225; for the
integer operands the allocator produces the comparison agrees with the
exact rational bound 1225 over 1000 used here. -/
def marginOK (csize size : Nat) : Bool := decide (1000 * csize ≤ 1225 * size)

/-- The test guarding replacement of the best fit in find_free_space:
best_fit is NULL, or the candidate size is below the best size. -/
def better_fit (m : Nat → Nat) (csize : Nat) : Option Nat → Bool
  | none => true
  | some b => decide (csize < (readDiv m (header_from_free_block b)).size)

/-- The while loop of find_free_space over one free list: walk the list
from cur, keeping the smallest sufficient block seen, and break as soon
as a new best fit lands within the margin.  Fuel bounds the walk; the
callers pass the break, which dominates any null-terminated list. -/
def scan_free_list (st : HeapState) (size : Nat) : Nat → Nat → Option Nat → Option Nat
  | 0, _, best => best
  | fuel + 1, cur, best =>
    if cur = 0 then best
    else
      let d := readDiv st.mem (header_from_free_block cur)
      let nxt := loadW st.mem (cur + 8)
      if in_heap st cur && !d.alloc && decide (size ≤ d.size) then
        if better_fit st.mem d.size best then
          if decide (size ≤ d.size) && marginOK d.size size then some cur
          else scan_free_list st size fuel nxt (some cur)
        else scan_free_list st size fuel nxt best
      else scan_free_list st size fuel nxt best

/-- The outer loop of find_free_space over the class index i: a class is
scanned when i is 5 or the request fits its threshold; a candidate that
passes the re-check is split when strictly larger than size plus header
plus free_block, otherwise allocated whole; when the class yields
nothing the loop moves on.  The counter k bounds the six iterations. -/
def find_free_space_go (st : HeapState) (size fuel : Nat) : Nat → Nat → Option Nat × HeapState
  | 0, _ => (none, st)
  | k + 1, i =>
    if hi : i < 6 then
      if i = 5 ∨ size ≤ free_list_sizes.getD i 0 then
        match scan_free_list st size fuel (st.freeLists ⟨i, hi⟩) none with
        | some b =>
          let ch := header_from_free_block b
          let d := readDiv st.mem ch
          if in_heap st b && !d.alloc && decide (size ≤ d.size) then
            if decide (size + DIVIDER_SIZE + 16 < d.size) then
              (some ch, (split st ch size).2)
            else
              (some ch,
               change_alloc st ch (make_divider d.size true d.prev_alloc d.next_alloc d.epilogue))
          else find_free_space_go st size fuel k (i + 1)
        | none => find_free_space_go st size fuel k (i + 1)
      else find_free_space_go st size fuel k (i + 1)
    else (none, st)

/-- find_free_space of mm.c. -/
def find_free_space (st : HeapState) (size fuel : Nat) : Option Nat × HeapState :=
  find_free_space_go st size fuel 6 0

/-- increase_heap of mm.c: sbrk the given size, place the new header 8
bytes below the returned base (on the old epilogue), write a fresh
epilogue after the new block, and run change_alloc on the new header. -/
def increase_heap (st : HeapState) (size : Nat) : Option Nat × HeapState :=
  match mm_sbrk st size with
  | (none, st1) => (none, st1)
  | (some ext, st1) =>
    let h := ext - DIVIDER_SIZE
    let m0 := writeDiv st1.mem h (make_divider size true true true false)
    let nh := header_to_header m0 h
    let m1 := writeDiv m0 nh (make_divider 0 true true true true)
    let st2 := change_alloc { st1 with mem := m1 } h (readDiv m1 h)
    (some h, st2)

/-- The local size adjustment of malloc: align the request plus header
and raise to the 32-byte minimum. -/
def malloc_size (size : Nat) : Nat :=
  let s := align ((size + DIVIDER_SIZE) % 2 ^ 64)
  if s < 32 then 32 else s

/-- malloc of mm.c.  A zero request returns NULL.  Otherwise the aligned
size is looked up in the free lists; on failure the heap is extended.
Note that on extension failure the C code still returns
data_from_header(NULL), the address 8, rather than NULL. -/
def malloc (st : HeapState) (size : Nat) : Nat × HeapState :=
  if size = 0 then (0, st)
  else
    let s := malloc_size size
    match find_free_space st s st.brk with
    | (none, st1) =>
      match increase_heap st1 s with
      | (none, st2) => (data_from_header 0, st2)
      | (some h, st2) => (data_from_header h, st2)
    | (some h, st1) => (data_from_header h, remove_from_free_list st1 h)

/-- coalesce of mm.c: h is the surviving header and f the address one
past the merged run (the parameter named footer); the merged size is the
pointer difference. -/
def coalesce (st : HeapState) (h f : Nat) : HeapState :=
  let new_size := f - h
  let hd := readDiv st.mem h
  let fd := readDiv st.mem f
  let d := make_divider new_size false hd.prev_alloc fd.next_alloc hd.epilogue
  let m0 := writeDiv st.mem h d
  let m1 :=
    if !(readDiv m0 h).alloc then writeDiv m0 (footer_from_header m0 h) (readDiv m0 h) else m0
  change_alloc { st with mem := m1 } h (readDiv m1 h)

/-- The marking phase of free (mm.c lines 700 to 705): rewrite the
header with alloc false and the successor's alloc bit, and, since the
block now has a footer, refresh header and footer through change_alloc;
the assignment of the change_alloc return value into the footer copies
the footer onto itself and is kept as the byte-normalizing write it
is. -/
def free_mark (st : HeapState) (p : Nat) : HeapState :=
  let h := header_from_data p
  let nh := header_to_header st.mem h
  let cd := readDiv st.mem h
  let nd := readDiv st.mem nh
  let cd1 := make_divider cd.size false cd.prev_alloc nd.alloc cd.epilogue
  let st0 : HeapState := { st with mem := writeDiv st.mem h cd1 }
  if !(readDiv st0.mem h).alloc then
    let st1a := change_alloc st0 h (readDiv st0.mem h)
    let fa := footer_from_header st1a.mem h
    { st1a with mem := writeDiv st1a.mem fa (readDiv st1a.mem fa) }
  else st0

/-- free of mm.c: mark the block free through the marking phase above,
then coalesce with the free neighbors as the prev_alloc and next_alloc
bits direct, and push the result on its free list. -/
def mm_free (st : HeapState) (p : Nat) : HeapState :=
  if p = 0 then st
  else
    let h := header_from_data p
    let nh := header_to_header st.mem h
    let st1 := free_mark st p
    let cd2 := readDiv st1.mem h
    let nd2 := readDiv st1.mem nh
    if !cd2.prev_alloc && !cd2.next_alloc && !nd2.epilogue then
      let ph := (h - DIVIDER_SIZE) - (readDiv st1.mem (h - DIVIDER_SIZE)).size + DIVIDER_SIZE
      let st2 := remove_from_free_list st1 ph
      let st3 := remove_from_free_list st2 nh
      let st4 := coalesce st3 ph (header_to_header st3.mem nh)
      add_to_free_list st4 ph
    else if !cd2.prev_alloc then
      let ph := (h - DIVIDER_SIZE) - (readDiv st1.mem (h - DIVIDER_SIZE)).size + DIVIDER_SIZE
      let st2 := remove_from_free_list st1 ph
      let st3 := coalesce st2 ph (header_to_header st2.mem h)
      add_to_free_list st3 ph
    else if !cd2.next_alloc then
      let st2 := remove_from_free_list st1 nh
      let st3 := coalesce st2 h (header_to_header st2.mem nh)
      add_to_free_list st3 h
    else add_to_free_list st1 h

/-- The memcpy primitive: bytes of the destination range come from the
source range of the original memory (the allocator only copies between
disjoint blocks). -/
def memcpy (m : Nat → Nat) (dst src len : Nat) : Nat → Nat :=
  fun x => if dst ≤ x ∧ x < dst + len then m (src + (x - dst)) else m x

/-- The memset primitive. -/
def memset (m : Nat → Nat) (dst v len : Nat) : Nat → Nat :=
  fun x => if dst ≤ x ∧ x < dst + len then v % 256 else m x

/-- transfer of mm.c: copy from the old payload to the new payload the
smaller block size minus the header size, as unsigned arithmetic. -/
def transfer (st : HeapState) (old_h new_h : Nat) : Bool × HeapState :=
  let new_data := data_from_header new_h
  let old_data := data_from_header old_h
  let od := readDiv st.mem old_h
  let nd := readDiv st.mem new_h
  let tsize := if od.size < nd.size then usub64 od.size DIVIDER_SIZE else usub64 nd.size DIVIDER_SIZE
  (true, { st with mem := memcpy st.mem new_data old_data tsize })

/-- realloc of mm.c.  The size test on the existing block subtracts the
header size in 64-bit unsigned arithmetic. -/
def realloc (st : HeapState) (oldptr size : Nat) : Nat × HeapState :=
  if oldptr = 0 then malloc st size
  else if size = 0 then (0, mm_free st oldptr)
  else if size ≤ usub64 (readDiv st.mem (header_from_data oldptr)).size DIVIDER_SIZE then
    (oldptr, st)
  else
    let res := malloc st size
    let new_h := header_from_data res.1
    let tr := transfer res.2 (header_from_data oldptr) new_h
    if tr.1 = false then (0, tr.2)
    else (data_from_header new_h, mm_free tr.2 oldptr)

/-- calloc of mm.c: the element count times the element size wraps in
size_t before being passed to malloc and memset. -/
def calloc (st : HeapState) (nmemb size : Nat) : Nat × HeapState :=
  let s := size * nmemb % 2 ^ 64
  let res := malloc st s
  if res.1 ≠ 0 then (res.1, { res.2 with mem := memset res.2.mem res.1 0 s }) else res

end MM

namespace MM

/-! Pure candidate search.  The search phase of find_free_space reads but
never writes, and the split or change_alloc action happens only on the
accepted candidate just before returning, so the candidate can be
computed by the same loop with the action stripped; the lemma
find_free_space_fst below proves the two agree. -/

/-- The class loop of find_free_space with the state actions stripped,
returning the accepted free_block pointer. -/
def find_candidate_go (st : HeapState) (size fuel : Nat) : Nat → Nat → Option Nat
  | 0, _ => none
  | k + 1, i =>
    if hi : i < 6 then
      if i = 5 ∨ size ≤ free_list_sizes.getD i 0 then
        match scan_free_list st size fuel (st.freeLists ⟨i, hi⟩) none with
        | some b =>
          let d := readDiv st.mem (header_from_free_block b)
          if in_heap st b && !d.alloc && decide (size ≤ d.size) then some b
          else find_candidate_go st size fuel k (i + 1)
        | none => find_candidate_go st size fuel k (i + 1)
      else find_candidate_go st size fuel k (i + 1)
    else none

/-- The free block the placement search of find_free_space settles on. -/
def find_candidate (st : HeapState) (size fuel : Nat) : Option Nat :=
  find_candidate_go st size fuel 6 0

/-- The walk of one free list as the specification words it: maintain the
smallest block of size at least the request, and exit as soon as a
candidate is within the margin.  No in-heap or allocation-bit checks
appear at this level; the equivalence theorem assumes the lists are well
formed. -/
def spec_scan (m : Nat → Nat) (size : Nat) : Nat → Nat → Option Nat → Option Nat
  | 0, _, best => best
  | fuel + 1, cur, best =>
    if cur = 0 then best
    else
      let d := readDiv m (header_from_free_block cur)
      let nxt := loadW m (cur + 8)
      if decide (size ≤ d.size) && marginOK d.size size then some cur
      else if decide (size ≤ d.size) && better_fit m d.size best then
        spec_scan m size fuel nxt (some cur)
      else spec_scan m size fuel nxt best

/-- The placement search exactly as claim C2 words it: scan the list of
class_for of the request, then fall through to class 5 when that class
produced no candidate. -/
def claim_search (st : HeapState) (size fuel : Nat) : Option Nat :=
  match spec_scan st.mem size fuel (st.freeLists (find_free_list size)) none with
  | some b => some b
  | none => spec_scan st.mem size fuel (st.freeLists 5) none

/-- The amended placement search: scan, in ascending order, every class
whose threshold admits the request, with class 5 as the final catch-all,
and return the best candidate of the first class that yields one. -/
def amended_search_go (st : HeapState) (size fuel : Nat) : Nat → Nat → Option Nat
  | 0, _ => none
  | k + 1, i =>
    if hi : i < 6 then
      if i = 5 ∨ size ≤ free_list_sizes.getD i 0 then
        match spec_scan st.mem size fuel (st.freeLists ⟨i, hi⟩) none with
        | some b => some b
        | none => amended_search_go st size fuel k (i + 1)
      else amended_search_go st size fuel k (i + 1)
    else none

/-- Entry point of the amended search. -/
def amended_search (st : HeapState) (size fuel : Nat) : Option Nat :=
  amended_search_go st size fuel 6 0

/-- Well-formedness of one free-list chain, up to the given fuel: the
walk reaches the null pointer within fuel steps and every node on the
way is in the heap with a free header. -/
def good_chain (st : HeapState) : Nat → Nat → Bool
  | 0, cur => decide (cur = 0)
  | fuel + 1, cur =>
    if cur = 0 then true
    else (in_heap st cur && !(readDiv st.mem (header_from_free_block cur)).alloc)
      && good_chain st fuel (loadW st.mem (cur + 8))

/-- Observer for claim C9: the branch selection of free, reproduced
statement for statement up to the coalescing decision, reporting whether
the taken branch merges the successor block (the first or the third
coalescing case of mm.c). -/
def free_merges_next (st : HeapState) (p : Nat) : Bool :=
  if p = 0 then false
  else
    let h := header_from_data p
    let nh := header_to_header st.mem h
    let st1 := free_mark st p
    let cd2 := readDiv st1.mem h
    let nd2 := readDiv st1.mem nh
    let b1 := !cd2.prev_alloc && !cd2.next_alloc && !nd2.epilogue
    let b2 := !b1 && !cd2.prev_alloc
    let b3 := !b1 && !b2 && !cd2.next_alloc
    b1 || b3

/-! Write traces.  For the moving-reallocate claim the final free of the
old block must be tracked through every coalescing branch.  Each state
operation below gets a trace: the list of (address, stored word) pairs
of exactly the stores it performs, in order, computed by the same
address arithmetic on the same intermediate states; the mem_trace
theorems prove each operation's memory is the fold of its trace. -/

/-- Replay a list of 8-byte stores. -/
def foldStores (m : Nat → Nat) : List (Nat × Nat) → (Nat → Nat)
  | [] => m
  | av :: rest => foldStores (storeW m av.1 av.2) rest

/-- The stores of change_alloc, in order. -/
def change_alloc_trace (st : HeapState) (h : Nat) (dummy : Divider) : List (Nat × Nat) :=
  let m0 := writeDiv st.mem h dummy
  let t1 := if !(readDiv m0 h).alloc then [(footer_from_header m0 h, encodeDiv dummy)] else []
  let m1 :=
    if !(readDiv m0 h).alloc then writeDiv m0 (footer_from_header m0 h) dummy else m0
  let nh := header_to_header m1 h
  let nd := readDiv m1 nh
  let m2 := writeDiv m1 nh
    (make_divider nd.size nd.alloc (readDiv m1 h).alloc nd.next_alloc nd.epilogue)
  let nd2 := readDiv m2 nh
  let t3 := if !nd2.epilogue && !nd2.alloc then [(footer_from_header m2 nh, encodeDiv nd2)] else []
  let m3 :=
    if !nd2.epilogue && !nd2.alloc then writeDiv m2 (footer_from_header m2 nh) nd2 else m2
  let t4 :=
    if !(readDiv m3 h).prev_alloc then
      let pfa := h - DIVIDER_SIZE
      let pf := readDiv m3 pfa
      let m := writeDiv m3 pfa
        (make_divider pf.size pf.alloc pf.prev_alloc (readDiv m3 h).alloc pf.epilogue)
      let ph := pfa - (readDiv m pfa).size + DIVIDER_SIZE
      [(pfa, encodeDiv (make_divider pf.size pf.alloc pf.prev_alloc (readDiv m3 h).alloc
          pf.epilogue)), (ph, encodeDiv (readDiv m pfa))]
    else []
  ((h, encodeDiv dummy) :: t1) ++
    ((nh, encodeDiv (make_divider nd.size nd.alloc (readDiv m1 h).alloc nd.next_alloc
      nd.epilogue)) :: t3) ++ t4

/-- The stores of the marking phase of free, in order. -/
def free_mark_trace (st : HeapState) (p : Nat) : List (Nat × Nat) :=
  let h := header_from_data p
  let nh := header_to_header st.mem h
  let cd := readDiv st.mem h
  let nd := readDiv st.mem nh
  let cd1 := make_divider cd.size false cd.prev_alloc nd.alloc cd.epilogue
  let st0 : HeapState := { st with mem := writeDiv st.mem h cd1 }
  if !(readDiv st0.mem h).alloc then
    let st1a := change_alloc st0 h (readDiv st0.mem h)
    let fa := footer_from_header st1a.mem h
    (h, encodeDiv cd1) :: change_alloc_trace st0 h (readDiv st0.mem h) ++
      [(fa, encodeDiv (readDiv st1a.mem fa))]
  else [(h, encodeDiv cd1)]

/-- The stores of remove_from_free_list, in order. -/
def remove_from_free_list_trace (st : HeapState) (h : Nat) : List (Nat × Nat) :=
  let cfb := free_block_from_header h
  let pfb := loadW st.mem cfb
  let nfb := loadW st.mem (cfb + 8)
  (if pfb ≠ 0 then [(pfb + 8, nfb)] else []) ++ (if nfb ≠ 0 then [(nfb, pfb)] else [])

/-- The stores of add_to_free_list, in order. -/
def add_to_free_list_trace (st : HeapState) (h : Nat) : List (Nat × Nat) :=
  let fl := find_free_list ((readDiv st.mem h).size)
  let nfb := free_block_from_header h
  (nfb, 0) :: (nfb + 8, st.freeLists fl) ::
    (if st.freeLists fl ≠ 0 then [(st.freeLists fl, nfb)] else [])

/-- The stores of coalesce, in order. -/
def coalesce_trace (st : HeapState) (h f : Nat) : List (Nat × Nat) :=
  let new_size := f - h
  let hd := readDiv st.mem h
  let fd := readDiv st.mem f
  let d := make_divider new_size false hd.prev_alloc fd.next_alloc hd.epilogue
  let m0 := writeDiv st.mem h d
  let t1 :=
    if !(readDiv m0 h).alloc then [(footer_from_header m0 h, encodeDiv (readDiv m0 h))] else []
  let m1 :=
    if !(readDiv m0 h).alloc then writeDiv m0 (footer_from_header m0 h) (readDiv m0 h) else m0
  (h, encodeDiv d) :: t1 ++ change_alloc_trace { st with mem := m1 } h (readDiv m1 h)

/-- The stores of free, in order, across all four coalescing branches. -/
def free_trace (st : HeapState) (p : Nat) : List (Nat × Nat) :=
  if p = 0 then []
  else
    let h := header_from_data p
    let nh := header_to_header st.mem h
    let st1 := free_mark st p
    let cd2 := readDiv st1.mem h
    let nd2 := readDiv st1.mem nh
    if !cd2.prev_alloc && !cd2.next_alloc && !nd2.epilogue then
      let ph := (h - DIVIDER_SIZE) - (readDiv st1.mem (h - DIVIDER_SIZE)).size + DIVIDER_SIZE
      let st2 := remove_from_free_list st1 ph
      let st3 := remove_from_free_list st2 nh
      let st4 := coalesce st3 ph (header_to_header st3.mem nh)
      free_mark_trace st p ++ remove_from_free_list_trace st1 ph ++
        remove_from_free_list_trace st2 nh ++
        coalesce_trace st3 ph (header_to_header st3.mem nh) ++ add_to_free_list_trace st4 ph
    else if !cd2.prev_alloc then
      let ph := (h - DIVIDER_SIZE) - (readDiv st1.mem (h - DIVIDER_SIZE)).size + DIVIDER_SIZE
      let st2 := remove_from_free_list st1 ph
      let st3 := coalesce st2 ph (header_to_header st2.mem h)
      free_mark_trace st p ++ remove_from_free_list_trace st1 ph ++
        coalesce_trace st2 ph (header_to_header st2.mem h) ++ add_to_free_list_trace st3 ph
    else if !cd2.next_alloc then
      let st2 := remove_from_free_list st1 nh
      let st3 := coalesce st2 h (header_to_header st2.mem nh)
      free_mark_trace st p ++ remove_from_free_list_trace st1 nh ++
        coalesce_trace st2 h (header_to_header st2.mem nh) ++ add_to_free_list_trace st3 h
    else free_mark_trace st p ++ add_to_free_list_trace st1 h

/-! Concrete heap states used by the claims: all are produced by running
the public entry points of the model from mm_init. -/

/-- Zero-filled initial memory. -/
def zeroMem : Nat → Nat := fun _ => 0

/-- Initial memory holding nonzero junk, so that payload contents are
observable. -/
def junkMem : Nat → Nat := fun a => a % 251

/-- Fallback state for the impossible failure of mm_init below. -/
def fallbackState : HeapState := ⟨zeroMem, 0, 0, fun _ => 0⟩

/-- Initialized heap over the given memory and sbrk limit. -/
def initHeap (m0 : Nat → Nat) (limit : Nat) : HeapState :=
  (mm_init m0 limit).getD fallbackState

/-- Fresh heap with ample sbrk budget. -/
def stFresh : HeapState := initHeap zeroMem 1000000

/-- Fresh heap whose sbrk budget is exhausted right after mm_init. -/
def stOOM : HeapState := initHeap zeroMem 32

/-- Fresh heap with junk memory and ample budget. -/
def stJunk : HeapState := initHeap junkMem 1000000

/-- Heap with budget for mm_init plus one 32-byte block. -/
def stSmall : HeapState := initHeap zeroMem 64

/-- One allocated block, budget exhausted: further growth must fail. -/
def stR : HeapState := (malloc stSmall 24).2

/-- Claim C4 failing trace, step 1: first 32-byte block. -/
def c4_t1 : Nat × HeapState := malloc stFresh 24

/-- Claim C4 failing trace, step 2: second 32-byte block. -/
def c4_t2 : Nat × HeapState := malloc c4_t1.2 24

/-- Claim C4 failing trace, step 3: free the first block. -/
def c4_t3 : HeapState := mm_free c4_t2.2 c4_t1.1

/-- Claim C4 failing trace, step 4: free the second block; the two merge
into one trailing free block of size 64. -/
def c4_t4 : HeapState := mm_free c4_t3 c4_t2.1

/-- Claim C4 failing trace, step 5: a 112-byte request; no scanned class
holds the 64-byte block, so the heap grows past the trailing free
block. -/
def c4_t5 : Nat × HeapState := malloc c4_t4 100

/-- Claim C4 failing trace, step 6: freeing the new block; its header
carries prev_alloc set by increase_heap, so no coalescing happens. -/
def c4_t6 : HeapState := mm_free c4_t5.2 c4_t5.1

/-- Claim C2 state, step 1: a 64-byte block. -/
def c2_t1 : Nat × HeapState := malloc stFresh 56

/-- Claim C2 state, step 2: a 32-byte block behind it. -/
def c2_t2 : Nat × HeapState := malloc c2_t1.2 24

/-- Claim C2 state: the 64-byte block freed, landing in class 2. -/
def stC2 : HeapState := mm_free c2_t2.2 c2_t1.1

/-- Claim C7 scenario: a 32-byte block with junk payload. -/
def c7_t1 : Nat × HeapState := malloc stJunk 16

/-- Claim C8 scenario: a 112-byte block. -/
def c8_t1 : Nat × HeapState := malloc stFresh 100

/-- Claim C9 scenario, three 80-byte blocks. -/
def c9_u1 : Nat × HeapState := malloc stFresh 64

/-- Claim C9 scenario, second block. -/
def c9_u2 : Nat × HeapState := malloc c9_u1.2 64

/-- Claim C9 scenario, third block. -/
def c9_u3 : Nat × HeapState := malloc c9_u2.2 64

/-- Claim C9 scenario: first block freed. -/
def c9_u4 : HeapState := mm_free c9_u3.2 c9_u1.1

/-- Claim C9 scenario: third block freed; freeing the middle block now
merges in both directions. -/
def c9_u5 : HeapState := mm_free c9_u4 c9_u3.1

end MM

namespace MM

set_option maxRecDepth 100000
set_option maxHeartbeats 1000000

/-! Basic laws of the byte memory. -/

theorem loadByte_storeByte_self (m : Nat → Nat) (a v : Nat) :
    loadByte (storeByte m a v) a = v % 256 := by
  show (if a = a then v % 256 else m a) % 256 = v % 256
  rw [if_pos rfl]
  omega

theorem loadByte_storeByte_ne (m : Nat → Nat) (a v x : Nat) (h : x ≠ a) :
    loadByte (storeByte m a v) x = loadByte m x := by
  simp [loadByte, storeByte, h]

theorem loadByte_storeW_out (m : Nat → Nat) (a v x : Nat) (h : x < a ∨ a + 8 ≤ x) :
    loadByte (storeW m a v) x = loadByte m x := by
  have h0 : x ≠ a := by omega
  have h1 : x ≠ a + 1 := by omega
  have h2 : x ≠ a + 2 := by omega
  have h3 : x ≠ a + 3 := by omega
  have h4 : x ≠ a + 4 := by omega
  have h5 : x ≠ a + 5 := by omega
  have h6 : x ≠ a + 6 := by omega
  have h7 : x ≠ a + 7 := by omega
  simp [storeW, loadByte, storeByte, h0, h1, h2, h3, h4, h5, h6, h7]

theorem loadByte_storeW_at (m : Nat → Nat) (a v i : Nat) (h : i < 8) :
    loadByte (storeW m a v) (a + i) = v / 256 ^ i % 256 := by
  interval_cases i <;>
    simp [storeW, loadByte, storeByte, Nat.add_right_cancel_iff]

theorem loadW_storeW_self (m : Nat → Nat) (a v : Nat) :
    loadW (storeW m a v) a = v % 2 ^ 64 := by
  have b0 := loadByte_storeW_at m a v 0 (by omega)
  have b1 := loadByte_storeW_at m a v 1 (by omega)
  have b2 := loadByte_storeW_at m a v 2 (by omega)
  have b3 := loadByte_storeW_at m a v 3 (by omega)
  have b4 := loadByte_storeW_at m a v 4 (by omega)
  have b5 := loadByte_storeW_at m a v 5 (by omega)
  have b6 := loadByte_storeW_at m a v 6 (by omega)
  have b7 := loadByte_storeW_at m a v 7 (by omega)
  simp only [pow_zero, Nat.add_zero, Nat.div_one] at b0
  unfold loadW
  rw [b0, b1, b2, b3, b4, b5, b6, b7]
  norm_num
  omega

theorem loadW_congr_bytes (m1 m2 : Nat → Nat) (b : Nat)
    (h : ∀ i, i < 8 → loadByte m1 (b + i) = loadByte m2 (b + i)) :
    loadW m1 b = loadW m2 b := by
  have h0 := h 0 (by omega)
  have h1 := h 1 (by omega)
  have h2 := h 2 (by omega)
  have h3 := h 3 (by omega)
  have h4 := h 4 (by omega)
  have h5 := h 5 (by omega)
  have h6 := h 6 (by omega)
  have h7 := h 7 (by omega)
  simp only [Nat.add_zero] at h0
  unfold loadW
  rw [h0, h1, h2, h3, h4, h5, h6, h7]

theorem loadW_storeW_out (m : Nat → Nat) (a v b : Nat) (h : b + 8 ≤ a ∨ a + 8 ≤ b) :
    loadW (storeW m a v) b = loadW m b := by
  apply loadW_congr_bytes
  intro i hi
  exact loadByte_storeW_out m a v (b + i) (by omega)

/-! Laws of the divider codec. -/

theorem boolBit_le_one (b : Bool) : boolBit b ≤ 1 := by cases b <;> simp [boolBit]

theorem encodeDiv_lt (d : Divider) : encodeDiv d < 2 ^ 64 := by
  have ha := boolBit_le_one d.alloc
  have hp := boolBit_le_one d.prev_alloc
  have hn := boolBit_le_one d.next_alloc
  have he := boolBit_le_one d.epilogue
  have hs : d.size % 2 ^ 60 < 2 ^ 60 := Nat.mod_lt _ (by norm_num)
  unfold encodeDiv
  omega

theorem decodeDiv_encodeDiv (d : Divider) (h : d.size < 2 ^ 60) :
    decodeDiv (encodeDiv d) = d := by
  obtain ⟨s, a, p, n, e⟩ := d
  simp only [encodeDiv, decodeDiv, boolBit] at *
  cases a <;> cases p <;> cases n <;> cases e <;>
    simp only [if_true, if_false, Bool.false_eq_true, Divider.mk.injEq] <;>
    refine ⟨by omega, ?_, ?_, ?_, ?_⟩ <;> simp [decide_eq_true_iff] <;> omega

theorem readDiv_size_lt (m : Nat → Nat) (a : Nat) : (readDiv m a).size < 2 ^ 60 := by
  simp only [readDiv, decodeDiv]
  exact Nat.mod_lt _ (by norm_num)

theorem readDiv_writeDiv_self (m : Nat → Nat) (a : Nat) (d : Divider) (h : d.size < 2 ^ 60) :
    readDiv (writeDiv m a d) a = d := by
  unfold readDiv writeDiv
  rw [loadW_storeW_self, Nat.mod_eq_of_lt (encodeDiv_lt d)]
  exact decodeDiv_encodeDiv d h

theorem readDiv_writeDiv_out (m : Nat → Nat) (a : Nat) (d : Divider) (b : Nat)
    (h : b + 8 ≤ a ∨ a + 8 ≤ b) :
    readDiv (writeDiv m a d) b = readDiv m b := by
  unfold readDiv writeDiv
  rw [loadW_storeW_out m a _ b h]

theorem loadW_writeDiv_out (m : Nat → Nat) (a : Nat) (d : Divider) (b : Nat)
    (h : b + 8 ≤ a ∨ a + 8 ≤ b) :
    loadW (writeDiv m a d) b = loadW m b := by
  unfold writeDiv
  exact loadW_storeW_out m a _ b h

/-! Laws of the byte primitives memset and memcpy. -/

theorem loadByte_memset_in (m : Nat → Nat) (dst v len x : Nat)
    (h : dst ≤ x ∧ x < dst + len) :
    loadByte (memset m dst v len) x = v % 256 := by
  show (if dst ≤ x ∧ x < dst + len then v % 256 else m x) % 256 = v % 256
  rw [if_pos h]
  omega

theorem loadByte_memset_out (m : Nat → Nat) (dst v len x : Nat)
    (h : x < dst ∨ dst + len ≤ x) :
    loadByte (memset m dst v len) x = loadByte m x := by
  have hx : ¬(dst ≤ x ∧ x < dst + len) := by omega
  simp [loadByte, memset, hx]

theorem loadByte_memcpy_in (m : Nat → Nat) (dst src len x : Nat)
    (h : dst ≤ x ∧ x < dst + len) :
    loadByte (memcpy m dst src len) x = loadByte m (src + (x - dst)) := by
  simp [loadByte, memcpy, h]

theorem loadByte_memcpy_out (m : Nat → Nat) (dst src len x : Nat)
    (h : x < dst ∨ dst + len ≤ x) :
    loadByte (memcpy m dst src len) x = loadByte m x := by
  have hx : ¬(dst ≤ x ∧ x < dst + len) := by omega
  simp [loadByte, memcpy, hx]

end MM

namespace MM

set_option maxRecDepth 1000000
set_option maxHeartbeats 2000000

/-- Claim C1 (corrected to the code_bug it exposes): on a heap whose sbrk
budget is exhausted, allocate(1) leaves the heap state untouched but
returns data_from_header(NULL), the non-null address 8, instead of the
null the specification promises; zero_allocate and reallocate likewise
surface the same non-null garbage pointer on extension failure. -/
theorem claim_C1 :
    (malloc stOOM 1).1 = 8 ∧ (malloc stOOM 1).1 ≠ 0 ∧ (malloc stOOM 1).2 = stOOM ∧
    data_from_header 0 = 8 ∧
    (calloc stOOM 4 8).1 = 8 ∧
    (malloc stSmall 24).1 = 32 ∧ (realloc stR 32 100).1 = 8 :=
  ⟨by decide, by decide, rfl, rfl, by decide, by decide, by decide⟩

/-- Claim C4 (code_bug): after the public call sequence allocate(24),
allocate(24), free both, allocate(100), free it, the heap holds two
adjacent free blocks of sizes 64 and 112 followed by the epilogue,
because increase_heap stamps prev_alloc true on the block it creates
even when the last block before the old epilogue is free, so the final
free skips coalescing.  This violates the maximal-coalescing invariant
the claim states. -/
theorem claim_C4 :
    readDiv c4_t6.mem 24 = ⟨64, false, true, true, false⟩ ∧
    readDiv c4_t6.mem (24 + 64) = ⟨112, false, true, true, false⟩ ∧
    c4_t6.brk = 24 + 64 + 112 + 8 ∧
    readDiv c4_t6.mem (24 + 64 + 112) = ⟨0, true, false, true, true⟩ := by
  decide

/-- Claim C6: allocate(0) returns null and the internal size is the
16-byte alignment of the request plus the 8-byte header, raised to the
32-byte minimum (the stated conjunction pins malloc_size n as exactly
that value); concretely, allocate(1) on a fresh heap makes a block of
total size 32 and grows the break by 32. -/
theorem claim_C6 (st : HeapState) (n : Nat) (h0 : 0 < n) (hbound : n + 8 ≤ 2 ^ 60) :
    malloc st 0 = (0, st) ∧
    16 ∣ malloc_size n ∧ 32 ≤ malloc_size n ∧ n + 8 ≤ malloc_size n ∧
    (malloc_size n = 32 ∨ malloc_size n < n + 8 + 16) ∧
    (malloc stFresh 1).1 = 32 ∧
    readDiv (malloc stFresh 1).2.mem (header_from_data (malloc stFresh 1).1) =
      ⟨32, true, true, true, false⟩ ∧
    (malloc stFresh 1).2.brk = stFresh.brk + 32 := by
  have e1 : (n + 8) % 2 ^ 64 = n + 8 := Nat.mod_eq_of_lt (by omega)
  refine ⟨rfl, ?_, ?_, ?_, ?_, by decide, by decide, by decide⟩ <;>
    (simp only [malloc_size, align, DIVIDER_SIZE, e1]; split_ifs <;> omega)

/-- Witness for claim C6 at the concrete request 1. -/
theorem claim_C6_witness :
    (0 < 1 ∧ 1 + 8 ≤ 2 ^ 60) ∧ (16 ∣ malloc_size 1 ∧ 32 ≤ malloc_size 1) :=
  ⟨⟨by decide, by decide⟩,
   (claim_C6 stFresh 1 (by decide) (by decide)).2.1,
   (claim_C6 stFresh 1 (by decide) (by decide)).2.2.1⟩

/-- Claim C8: when the existing block already holds the request, that
is, its header size minus the 8-byte header is at least the new size,
reallocate returns the pointer unchanged and performs no heap mutation
at all; the witness runs the concrete example of the claim, a 112-byte
block answering reallocate(p, 100). -/
theorem claim_C8 (st : HeapState) (p n : Nat) (hp : p ≠ 0) (hn : 0 < n)
    (hfit : n ≤ (readDiv st.mem (header_from_data p)).size - 8) :
    realloc st p n = (p, st) := by
  have hs : (readDiv st.mem (header_from_data p)).size < 2 ^ 60 := readDiv_size_lt _ _
  have hcond : n ≤ usub64 (readDiv st.mem (header_from_data p)).size DIVIDER_SIZE := by
    unfold usub64 DIVIDER_SIZE
    omega
  unfold realloc
  rw [if_neg hp, if_neg (by omega : ¬ n = 0), if_pos hcond]

/-- Witness for claim C8 on the concrete 112-byte block of the claim. -/
theorem claim_C8_witness :
    (c8_t1.1 = 32 ∧ (readDiv c8_t1.2.mem 24).size = 112) ∧
    realloc c8_t1.2 32 100 = (32, c8_t1.2) :=
  ⟨by decide, claim_C8 c8_t1.2 32 100 (by decide) (by decide) (by decide)⟩

/-- Claim C10: when the block being unlinked has a null prev pointer (it
is a list head), remove_from_free_list rewrites exactly those heads that
equal the block, scanning all six lists rather than recomputing the
class from the current header size; hence the update is independent of
that size.  The concrete half exercises the allocate path in which split
shrinks the chosen head of class 2 to size 32 (class 0) before removal,
and removal still clears the class 2 head. -/
theorem claim_C10 (st : HeapState) (h : Nat)
    (hhead : loadW st.mem (free_block_from_header h) = 0) :
    (∀ i : Fin 6, (remove_from_free_list st h).freeLists i =
        (if st.freeLists i = free_block_from_header h
         then loadW st.mem (free_block_from_header h + 8) else st.freeLists i)) ∧
    (find_free_list 64 = 2 ∧ find_free_list 32 = 0) ∧
    stC2.freeLists 2 = 32 ∧ (readDiv stC2.mem 24).size = 64 ∧
    (malloc stC2 24).1 = 32 ∧
    readDiv (malloc stC2 24).2.mem 24 = ⟨32, true, true, false, false⟩ ∧
    (malloc stC2 24).2.freeLists 2 = 0 ∧ (malloc stC2 24).2.freeLists 0 = 64 := by
  constructor
  · intro i
    unfold remove_from_free_list
    simp only [hhead]
    simp only [ne_eq, not_true_eq_false, if_false, ite_not, if_true]
    split <;> rfl
  · exact ⟨⟨by decide, by decide⟩, by decide, by decide, by decide, by decide, by decide,
      by decide⟩

/-- Witness for claim C10 on the head of class 2 in the concrete split
scenario. -/
theorem claim_C10_witness :
    (remove_from_free_list stC2 24).freeLists 2 =
      (if stC2.freeLists 2 = free_block_from_header 24
       then loadW stC2.mem (free_block_from_header 24 + 8) else stC2.freeLists 2) :=
  (claim_C10 stC2 24 (by decide)).1 2

/-- Normal form of make_divider when the size fits the 60-bit field. -/
theorem make_divider_eq (s : Nat) (a p n e : Bool) (h : s < 2 ^ 60) :
    make_divider s a p n e = ⟨s, a, p, n, e⟩ := by
  unfold make_divider
  rw [Nat.mod_eq_of_lt h]

/-- Claim C3 counterexample: with m = 2^63 + 1 and n = 2 the product
wraps in size_t to 2, so zero_allocate succeeds with a genuine 32-byte
block and zeroes only 2 bytes; the byte at payload offset 2, well inside
the first m times n bytes the claim promises to be zero, is nonzero. -/
theorem claim_C3_counterexample :
    (calloc stJunk (2 ^ 63 + 1) 2).1 = 32 ∧
    readDiv (calloc stJunk (2 ^ 63 + 1) 2).2.mem 24 = ⟨32, true, true, true, false⟩ ∧
    (2 : Nat) < (2 ^ 63 + 1) * 2 ∧
    loadByte (calloc stJunk (2 ^ 63 + 1) 2).2.mem (32 + 2) ≠ 0 := by
  decide

/-- Claim C3 as amended: a zero_allocate(m, n) that returns a non-null
pointer zeroes the first m times n modulo 2^64 bytes of the payload (the
product is computed in size_t), and a zero element count or size returns
null. -/
theorem claim_C3 (st : HeapState) (m n : Nat) :
    ((calloc st m n).1 ≠ 0 →
      ∀ i, i < n * m % 2 ^ 64 →
        loadByte (calloc st m n).2.mem ((calloc st m n).1 + i) = 0) ∧
    ((m = 0 ∨ n = 0) → (calloc st m n).1 = 0) := by
  have hfst : (calloc st m n).1 = (malloc st (n * m % 2 ^ 64)).1 := by
    simp only [calloc]
    split <;> rfl
  constructor
  · intro hne i hi
    rw [hfst] at hne
    have hmem : (calloc st m n).2.mem =
        memset (malloc st (n * m % 2 ^ 64)).2.mem (malloc st (n * m % 2 ^ 64)).1 0
          (n * m % 2 ^ 64) := by
      simp only [calloc, if_pos hne]
    rw [hfst, hmem, loadByte_memset_in]
    omega
  · intro h0
    have hz : n * m % 2 ^ 64 = 0 := by
      rcases h0 with h0 | h0 <;> simp [h0]
    rw [hfst, hz]
    rfl

/-- Witness for the amended claim C3 at the concrete call
zero_allocate(4, 8) on a junk-filled fresh heap. -/
theorem claim_C3_witness :
    (calloc stJunk 4 8).1 ≠ 0 ∧
    loadByte (calloc stJunk 4 8).2.mem ((calloc stJunk 4 8).1 + 5) = 0 :=
  ⟨by decide, (claim_C3 stJunk 4 8).1 (by decide) 5 (by decide)⟩

/-- Projection laws of make_divider. -/
theorem make_divider_size (s : Nat) (a p n e : Bool) :
    (make_divider s a p n e).size = s % 2 ^ 60 := rfl

theorem make_divider_alloc (s : Nat) (a p n e : Bool) :
    (make_divider s a p n e).alloc = a := rfl

theorem make_divider_prev (s : Nat) (a p n e : Bool) :
    (make_divider s a p n e).prev_alloc = p := rfl

theorem make_divider_next (s : Nat) (a p n e : Bool) :
    (make_divider s a p n e).next_alloc = n := rfl

theorem make_divider_ep (s : Nat) (a p n e : Bool) :
    (make_divider s a p n e).epilogue = e := rfl

theorem make_divider_size_lt (s : Nat) (a p n e : Bool) :
    (make_divider s a p n e).size < 2 ^ 60 := by
  rw [make_divider_size]
  exact Nat.mod_lt _ (by norm_num)

/-- Reduction of an if whose condition is the true boolean literal. -/
theorem ite_cond_true {α : Sort u_1} (a b : α) : (if true = true then a else b) = a := by simp

/-- Reduction of an if whose condition is the false boolean literal. -/
theorem ite_cond_false {α : Sort u_1} (a b : α) : (if false = true then a else b) = b := by simp

/-- Symbolic execution of change_alloc when marking a block free whose
previous neighbor bit is set and whose successor is allocated: exactly
three writes happen, the header, its footer, and the successor header
whose prev_alloc bit is refreshed. -/
theorem change_alloc_mark_free (st : HeapState) (h : Nat) (d : Divider)
    (ha : d.alloc = false) (hp : d.prev_alloc = true)
    (hsz : 16 ≤ d.size) (hlt : d.size < 2 ^ 60)
    (hna : (readDiv st.mem (h + d.size)).alloc = true) :
    (change_alloc st h d).mem =
      writeDiv (writeDiv (writeDiv st.mem h d) (h + d.size - 8) d) (h + d.size)
        (make_divider (readDiv st.mem (h + d.size)).size
          (readDiv st.mem (h + d.size)).alloc d.alloc
          (readDiv st.mem (h + d.size)).next_alloc
          (readDiv st.mem (h + d.size)).epilogue) ∧
    (change_alloc st h d).brk = st.brk ∧ (change_alloc st h d).limit = st.limit ∧
    (change_alloc st h d).freeLists = st.freeLists := by
  refine ⟨?_, rfl, rfl, rfl⟩
  have e0 : readDiv (writeDiv st.mem h d) h = d := readDiv_writeDiv_self _ _ _ hlt
  have e1 : readDiv (writeDiv (writeDiv st.mem h d) (h + d.size - 8) d) h = d := by
    rw [readDiv_writeDiv_out _ _ _ _ (by omega), e0]
  have e2 : readDiv (writeDiv (writeDiv st.mem h d) (h + d.size - 8) d) (h + d.size) =
      readDiv st.mem (h + d.size) := by
    rw [readDiv_writeDiv_out _ _ _ _ (by omega), readDiv_writeDiv_out _ _ _ _ (by omega)]
  have e3 : readDiv
      (writeDiv (writeDiv (writeDiv st.mem h d) (h + d.size - 8) d) (h + d.size)
        (make_divider (readDiv st.mem (h + d.size)).size (readDiv st.mem (h + d.size)).alloc
          d.alloc (readDiv st.mem (h + d.size)).next_alloc
          (readDiv st.mem (h + d.size)).epilogue)) (h + d.size) =
      make_divider (readDiv st.mem (h + d.size)).size (readDiv st.mem (h + d.size)).alloc
        d.alloc (readDiv st.mem (h + d.size)).next_alloc
        (readDiv st.mem (h + d.size)).epilogue :=
    readDiv_writeDiv_self _ _ _ (make_divider_size_lt _ _ _ _ _)
  have e4 : readDiv
      (writeDiv (writeDiv (writeDiv st.mem h d) (h + d.size - 8) d) (h + d.size)
        (make_divider (readDiv st.mem (h + d.size)).size (readDiv st.mem (h + d.size)).alloc
          d.alloc (readDiv st.mem (h + d.size)).next_alloc
          (readDiv st.mem (h + d.size)).epilogue)) h = d := by
    rw [readDiv_writeDiv_out _ _ _ _ (by omega), e1]
  have hcond : (!(make_divider (readDiv st.mem (h + d.size)).size
      (readDiv st.mem (h + d.size)).alloc d.alloc (readDiv st.mem (h + d.size)).next_alloc
      (readDiv st.mem (h + d.size)).epilogue).epilogue &&
      !(make_divider (readDiv st.mem (h + d.size)).size (readDiv st.mem (h + d.size)).alloc
      d.alloc (readDiv st.mem (h + d.size)).next_alloc
      (readDiv st.mem (h + d.size)).epilogue).alloc) = false := by
    simp [make_divider_alloc, make_divider_ep, hna]
  have hc0 : (!d.alloc) = true := by simp [ha]
  have hcp : (!d.prev_alloc) = false := by simp [hp]
  simp only [change_alloc, footer_from_header, header_to_header, DIVIDER_SIZE, e0, e1, e2,
    e3, e4, hcond, hc0, hcp, ite_cond_true, ite_cond_false, Bool.false_eq_true, if_true,
    if_false]

/-- Symbolic execution of change_alloc on an allocated block whose
previous neighbor bit is set and whose successor is either allocated or
the epilogue: two writes happen, the header and the successor header. -/
theorem change_alloc_alloc_mem (st : HeapState) (h : Nat) (d : Divider)
    (ha : d.alloc = true) (hp : d.prev_alloc = true)
    (hsz : 16 ≤ d.size) (hlt : d.size < 2 ^ 60)
    (hna : (readDiv st.mem (h + d.size)).alloc = true ∨
           (readDiv st.mem (h + d.size)).epilogue = true) :
    (change_alloc st h d).mem =
      writeDiv (writeDiv st.mem h d) (h + d.size)
        (make_divider (readDiv st.mem (h + d.size)).size
          (readDiv st.mem (h + d.size)).alloc d.alloc
          (readDiv st.mem (h + d.size)).next_alloc
          (readDiv st.mem (h + d.size)).epilogue) ∧
    (change_alloc st h d).brk = st.brk ∧ (change_alloc st h d).limit = st.limit ∧
    (change_alloc st h d).freeLists = st.freeLists := by
  refine ⟨?_, rfl, rfl, rfl⟩
  have e0 : readDiv (writeDiv st.mem h d) h = d := readDiv_writeDiv_self _ _ _ hlt
  have e2 : readDiv (writeDiv st.mem h d) (h + d.size) = readDiv st.mem (h + d.size) :=
    readDiv_writeDiv_out _ _ _ _ (by omega)
  have e3 : readDiv
      (writeDiv (writeDiv st.mem h d) (h + d.size)
        (make_divider (readDiv st.mem (h + d.size)).size (readDiv st.mem (h + d.size)).alloc
          d.alloc (readDiv st.mem (h + d.size)).next_alloc
          (readDiv st.mem (h + d.size)).epilogue)) (h + d.size) =
      make_divider (readDiv st.mem (h + d.size)).size (readDiv st.mem (h + d.size)).alloc
        d.alloc (readDiv st.mem (h + d.size)).next_alloc
        (readDiv st.mem (h + d.size)).epilogue :=
    readDiv_writeDiv_self _ _ _ (make_divider_size_lt _ _ _ _ _)
  have e4 : readDiv
      (writeDiv (writeDiv st.mem h d) (h + d.size)
        (make_divider (readDiv st.mem (h + d.size)).size (readDiv st.mem (h + d.size)).alloc
          d.alloc (readDiv st.mem (h + d.size)).next_alloc
          (readDiv st.mem (h + d.size)).epilogue)) h = d := by
    rw [readDiv_writeDiv_out _ _ _ _ (by omega), e0]
  have hcond : (!(make_divider (readDiv st.mem (h + d.size)).size
      (readDiv st.mem (h + d.size)).alloc d.alloc (readDiv st.mem (h + d.size)).next_alloc
      (readDiv st.mem (h + d.size)).epilogue).epilogue &&
      !(make_divider (readDiv st.mem (h + d.size)).size (readDiv st.mem (h + d.size)).alloc
      d.alloc (readDiv st.mem (h + d.size)).next_alloc
      (readDiv st.mem (h + d.size)).epilogue).alloc) = false := by
    simp only [make_divider_alloc, make_divider_ep]
    rcases hna with hna | hna <;> simp [hna]
  have hc0 : (!d.alloc) = false := by simp [ha]
  have hcp : (!d.prev_alloc) = false := by simp [hp]
  simp only [change_alloc, footer_from_header, header_to_header, DIVIDER_SIZE, e0, e2,
    e3, e4, hcond, hc0, hcp, ite_cond_true, ite_cond_false, Bool.false_eq_true, if_true,
    if_false]


set_option maxHeartbeats 4000000 in
/-- Symbolic execution of the marking phase of free: the header is
rewritten free with its footer duplicated and the successor header's
prev_alloc bit cleared; nothing else changes. -/
theorem free_mark_spec (st : HeapState) (p : Nat)
    (_hp16 : 16 ≤ p)
    (hsz : 16 ≤ (readDiv st.mem (p - 8)).size)
    (hpa : (readDiv st.mem (p - 8)).prev_alloc = true)
    (hna : (readDiv st.mem (p - 8 + (readDiv st.mem (p - 8)).size)).alloc = true) :
    (free_mark st p).mem = writeDiv (writeDiv (writeDiv (writeDiv (writeDiv st.mem (p - 8) (⟨(readDiv st.mem (p - 8)).size, false, true, true, (readDiv st.mem (p - 8)).epilogue⟩ : Divider)) (p - 8) (⟨(readDiv st.mem (p - 8)).size, false, true, true, (readDiv st.mem (p - 8)).epilogue⟩ : Divider)) (p - 8 + (readDiv st.mem (p - 8)).size - 8) (⟨(readDiv st.mem (p - 8)).size, false, true, true, (readDiv st.mem (p - 8)).epilogue⟩ : Divider)) (p - 8 + (readDiv st.mem (p - 8)).size) (⟨(readDiv st.mem (p - 8 + (readDiv st.mem (p - 8)).size)).size, true, false, (readDiv st.mem (p - 8 + (readDiv st.mem (p - 8)).size)).next_alloc, (readDiv st.mem (p - 8 + (readDiv st.mem (p - 8)).size)).epilogue⟩ : Divider)) (p - 8 + (readDiv st.mem (p - 8)).size - 8) (⟨(readDiv st.mem (p - 8)).size, false, true, true, (readDiv st.mem (p - 8)).epilogue⟩ : Divider) ∧
    (free_mark st p).brk = st.brk ∧ (free_mark st p).limit = st.limit ∧
    (free_mark st p).freeLists = st.freeLists := by
  have hlt : (readDiv st.mem (p - 8)).size < 2 ^ 60 := readDiv_size_lt _ _
  have HCD1 : make_divider (readDiv st.mem (p - 8)).size false (readDiv st.mem (p - 8)).prev_alloc (readDiv st.mem (p - 8 + (readDiv st.mem (p - 8)).size)).alloc (readDiv st.mem (p - 8)).epilogue = (⟨(readDiv st.mem (p - 8)).size, false, true, true, (readDiv st.mem (p - 8)).epilogue⟩ : Divider) := by
    rw [hpa, hna, make_divider_eq _ _ _ _ _ hlt]
  have E1 : readDiv (writeDiv st.mem (p - 8) (⟨(readDiv st.mem (p - 8)).size, false, true, true, (readDiv st.mem (p - 8)).epilogue⟩ : Divider)) (p - 8) = (⟨(readDiv st.mem (p - 8)).size, false, true, true, (readDiv st.mem (p - 8)).epilogue⟩ : Divider) :=
    readDiv_writeDiv_self _ _ _ hlt
  have EN0 : readDiv (writeDiv st.mem (p - 8) (⟨(readDiv st.mem (p - 8)).size, false, true, true, (readDiv st.mem (p - 8)).epilogue⟩ : Divider)) (p - 8 + (readDiv st.mem (p - 8)).size) = (readDiv st.mem (p - 8 + (readDiv st.mem (p - 8)).size)) :=
    readDiv_writeDiv_out _ _ _ _ (by omega)
  have HNA1 : (readDiv (writeDiv st.mem (p - 8) (⟨(readDiv st.mem (p - 8)).size, false, true, true, (readDiv st.mem (p - 8)).epilogue⟩ : Divider)) (p - 8 + ((⟨(readDiv st.mem (p - 8)).size, false, true, true, (readDiv st.mem (p - 8)).epilogue⟩ : Divider) : Divider).size)).alloc = true := by
    rw [show p - 8 + ((⟨(readDiv st.mem (p - 8)).size, false, true, true, (readDiv st.mem (p - 8)).epilogue⟩ : Divider) : Divider).size = p - 8 + (readDiv st.mem (p - 8)).size from rfl, EN0]
    exact hna
  have HCA0 := change_alloc_mark_free { st with mem := writeDiv st.mem (p - 8) (⟨(readDiv st.mem (p - 8)).size, false, true, true, (readDiv st.mem (p - 8)).epilogue⟩ : Divider) } (p - 8) (⟨(readDiv st.mem (p - 8)).size, false, true, true, (readDiv st.mem (p - 8)).epilogue⟩ : Divider)
    rfl rfl hsz hlt HNA1
  have HD2 : make_divider (readDiv st.mem (p - 8 + (readDiv st.mem (p - 8)).size)).size (readDiv st.mem (p - 8 + (readDiv st.mem (p - 8)).size)).alloc false (readDiv st.mem (p - 8 + (readDiv st.mem (p - 8)).size)).next_alloc (readDiv st.mem (p - 8 + (readDiv st.mem (p - 8)).size)).epilogue
      = (⟨(readDiv st.mem (p - 8 + (readDiv st.mem (p - 8)).size)).size, true, false, (readDiv st.mem (p - 8 + (readDiv st.mem (p - 8)).size)).next_alloc, (readDiv st.mem (p - 8 + (readDiv st.mem (p - 8)).size)).epilogue⟩ : Divider) := by
    rw [make_divider_eq _ _ _ _ _ (readDiv_size_lt _ _), hna]
  have HCA : (change_alloc { st with mem := writeDiv st.mem (p - 8) (⟨(readDiv st.mem (p - 8)).size, false, true, true, (readDiv st.mem (p - 8)).epilogue⟩ : Divider) } (p - 8) (⟨(readDiv st.mem (p - 8)).size, false, true, true, (readDiv st.mem (p - 8)).epilogue⟩ : Divider)).mem = writeDiv (writeDiv (writeDiv (writeDiv st.mem (p - 8) (⟨(readDiv st.mem (p - 8)).size, false, true, true, (readDiv st.mem (p - 8)).epilogue⟩ : Divider)) (p - 8) (⟨(readDiv st.mem (p - 8)).size, false, true, true, (readDiv st.mem (p - 8)).epilogue⟩ : Divider)) (p - 8 + (readDiv st.mem (p - 8)).size - 8) (⟨(readDiv st.mem (p - 8)).size, false, true, true, (readDiv st.mem (p - 8)).epilogue⟩ : Divider)) (p - 8 + (readDiv st.mem (p - 8)).size) (⟨(readDiv st.mem (p - 8 + (readDiv st.mem (p - 8)).size)).size, true, false, (readDiv st.mem (p - 8 + (readDiv st.mem (p - 8)).size)).next_alloc, (readDiv st.mem (p - 8 + (readDiv st.mem (p - 8)).size)).epilogue⟩ : Divider) ∧
      (change_alloc { st with mem := writeDiv st.mem (p - 8) (⟨(readDiv st.mem (p - 8)).size, false, true, true, (readDiv st.mem (p - 8)).epilogue⟩ : Divider) } (p - 8) (⟨(readDiv st.mem (p - 8)).size, false, true, true, (readDiv st.mem (p - 8)).epilogue⟩ : Divider)).brk = st.brk ∧
      (change_alloc { st with mem := writeDiv st.mem (p - 8) (⟨(readDiv st.mem (p - 8)).size, false, true, true, (readDiv st.mem (p - 8)).epilogue⟩ : Divider) } (p - 8) (⟨(readDiv st.mem (p - 8)).size, false, true, true, (readDiv st.mem (p - 8)).epilogue⟩ : Divider)).limit = st.limit ∧
      (change_alloc { st with mem := writeDiv st.mem (p - 8) (⟨(readDiv st.mem (p - 8)).size, false, true, true, (readDiv st.mem (p - 8)).epilogue⟩ : Divider) } (p - 8) (⟨(readDiv st.mem (p - 8)).size, false, true, true, (readDiv st.mem (p - 8)).epilogue⟩ : Divider)).freeLists = st.freeLists := by
    obtain ⟨h1, h2, h3, h4⟩ := HCA0
    dsimp only at h1
    rw [EN0] at h1
    rw [HD2] at h1
    exact ⟨h1, h2, h3, h4⟩
  have E2 : readDiv (writeDiv (writeDiv (writeDiv (writeDiv st.mem (p - 8) (⟨(readDiv st.mem (p - 8)).size, false, true, true, (readDiv st.mem (p - 8)).epilogue⟩ : Divider)) (p - 8) (⟨(readDiv st.mem (p - 8)).size, false, true, true, (readDiv st.mem (p - 8)).epilogue⟩ : Divider)) (p - 8 + (readDiv st.mem (p - 8)).size - 8) (⟨(readDiv st.mem (p - 8)).size, false, true, true, (readDiv st.mem (p - 8)).epilogue⟩ : Divider)) (p - 8 + (readDiv st.mem (p - 8)).size) (⟨(readDiv st.mem (p - 8 + (readDiv st.mem (p - 8)).size)).size, true, false, (readDiv st.mem (p - 8 + (readDiv st.mem (p - 8)).size)).next_alloc, (readDiv st.mem (p - 8 + (readDiv st.mem (p - 8)).size)).epilogue⟩ : Divider)) (p - 8) = (⟨(readDiv st.mem (p - 8)).size, false, true, true, (readDiv st.mem (p - 8)).epilogue⟩ : Divider) := by
    rw [readDiv_writeDiv_out _ _ _ _ (by omega), readDiv_writeDiv_out _ _ _ _ (by omega)]
    exact readDiv_writeDiv_self _ _ _ hlt
  have E3 : readDiv (writeDiv (writeDiv (writeDiv (writeDiv st.mem (p - 8) (⟨(readDiv st.mem (p - 8)).size, false, true, true, (readDiv st.mem (p - 8)).epilogue⟩ : Divider)) (p - 8) (⟨(readDiv st.mem (p - 8)).size, false, true, true, (readDiv st.mem (p - 8)).epilogue⟩ : Divider)) (p - 8 + (readDiv st.mem (p - 8)).size - 8) (⟨(readDiv st.mem (p - 8)).size, false, true, true, (readDiv st.mem (p - 8)).epilogue⟩ : Divider)) (p - 8 + (readDiv st.mem (p - 8)).size) (⟨(readDiv st.mem (p - 8 + (readDiv st.mem (p - 8)).size)).size, true, false, (readDiv st.mem (p - 8 + (readDiv st.mem (p - 8)).size)).next_alloc, (readDiv st.mem (p - 8 + (readDiv st.mem (p - 8)).size)).epilogue⟩ : Divider)) (p - 8 + (readDiv st.mem (p - 8)).size - 8) = (⟨(readDiv st.mem (p - 8)).size, false, true, true, (readDiv st.mem (p - 8)).epilogue⟩ : Divider) := by
    rw [readDiv_writeDiv_out _ _ _ _ (by omega)]
    exact readDiv_writeDiv_self _ _ _ hlt
  simp only [free_mark, header_from_data, header_to_header, footer_from_header,
    DIVIDER_SIZE, HCD1, E1, HCA.1, HCA.2.1, HCA.2.2.1, HCA.2.2.2, E2, E3, Bool.not_false,
    Bool.not_true, ite_cond_true, ite_cond_false, Bool.false_eq_true, if_true, if_false]
  exact ⟨trivial, trivial, trivial, trivial⟩

set_option maxHeartbeats 4000000 in
/-- Symbolic execution of free when the freed block's prev_alloc bit is
set and its successor is allocated (the no-coalescing branch): the final
memory differs from the initial one only inside the freed block, its
successor header, and the 8 bytes of the old head of the target free
list, and the freed header carries alloc false. -/
theorem mm_free_no_coalesce (st : HeapState) (p : Nat)
    (hp16 : 16 ≤ p)
    (hsz : 16 ≤ (readDiv st.mem (p - 8)).size)
    (hpa : (readDiv st.mem (p - 8)).prev_alloc = true)
    (hna : (readDiv st.mem (p - 8 + (readDiv st.mem (p - 8)).size)).alloc = true)
    (hhd : st.freeLists (find_free_list (readDiv st.mem (p - 8)).size) = 0 ∨ p ≤ st.freeLists (find_free_list (readDiv st.mem (p - 8)).size)) :
    (∀ x, (x < p - 8 ∨ p + (readDiv st.mem (p - 8)).size ≤ x) →
        (st.freeLists (find_free_list (readDiv st.mem (p - 8)).size) = 0 ∨ x + 8 ≤ st.freeLists (find_free_list (readDiv st.mem (p - 8)).size) ∨ st.freeLists (find_free_list (readDiv st.mem (p - 8)).size) + 8 ≤ x) →
      loadByte (mm_free st p).mem x = loadByte st.mem x) ∧
    readDiv (mm_free st p).mem (p - 8) = (⟨(readDiv st.mem (p - 8)).size, false, true, true, (readDiv st.mem (p - 8)).epilogue⟩ : Divider) ∧
    (mm_free st p).brk = st.brk := by
  have hlt : (readDiv st.mem (p - 8)).size < 2 ^ 60 := readDiv_size_lt _ _
  have hp0 : ¬ p = 0 := by omega
  obtain ⟨FM1, FM2, FM3, FM4⟩ := free_mark_spec st p hp16 hsz hpa hna
  have E4 : readDiv (writeDiv (writeDiv (writeDiv (writeDiv (writeDiv st.mem (p - 8) (⟨(readDiv st.mem (p - 8)).size, false, true, true, (readDiv st.mem (p - 8)).epilogue⟩ : Divider)) (p - 8) (⟨(readDiv st.mem (p - 8)).size, false, true, true, (readDiv st.mem (p - 8)).epilogue⟩ : Divider)) (p - 8 + (readDiv st.mem (p - 8)).size - 8) (⟨(readDiv st.mem (p - 8)).size, false, true, true, (readDiv st.mem (p - 8)).epilogue⟩ : Divider)) (p - 8 + (readDiv st.mem (p - 8)).size) (⟨(readDiv st.mem (p - 8 + (readDiv st.mem (p - 8)).size)).size, true, false, (readDiv st.mem (p - 8 + (readDiv st.mem (p - 8)).size)).next_alloc, (readDiv st.mem (p - 8 + (readDiv st.mem (p - 8)).size)).epilogue⟩ : Divider)) (p - 8 + (readDiv st.mem (p - 8)).size - 8) (⟨(readDiv st.mem (p - 8)).size, false, true, true, (readDiv st.mem (p - 8)).epilogue⟩ : Divider)) (p - 8) = (⟨(readDiv st.mem (p - 8)).size, false, true, true, (readDiv st.mem (p - 8)).epilogue⟩ : Divider) := by
    rw [readDiv_writeDiv_out _ _ _ _ (by omega), readDiv_writeDiv_out _ _ _ _ (by omega),
      readDiv_writeDiv_out _ _ _ _ (by omega)]
    exact readDiv_writeDiv_self _ _ _ hlt
  have E4f : readDiv (free_mark st p).mem (p - 8) = (⟨(readDiv st.mem (p - 8)).size, false, true, true, (readDiv st.mem (p - 8)).epilogue⟩ : Divider) := by rw [FM1]; exact E4
  have HMEM : (mm_free st p).mem =
      (if st.freeLists (find_free_list (readDiv st.mem (p - 8)).size) ≠ 0 then
        storeW (storeW (storeW (writeDiv (writeDiv (writeDiv (writeDiv (writeDiv st.mem (p - 8) (⟨(readDiv st.mem (p - 8)).size, false, true, true, (readDiv st.mem (p - 8)).epilogue⟩ : Divider)) (p - 8) (⟨(readDiv st.mem (p - 8)).size, false, true, true, (readDiv st.mem (p - 8)).epilogue⟩ : Divider)) (p - 8 + (readDiv st.mem (p - 8)).size - 8) (⟨(readDiv st.mem (p - 8)).size, false, true, true, (readDiv st.mem (p - 8)).epilogue⟩ : Divider)) (p - 8 + (readDiv st.mem (p - 8)).size) (⟨(readDiv st.mem (p - 8 + (readDiv st.mem (p - 8)).size)).size, true, false, (readDiv st.mem (p - 8 + (readDiv st.mem (p - 8)).size)).next_alloc, (readDiv st.mem (p - 8 + (readDiv st.mem (p - 8)).size)).epilogue⟩ : Divider)) (p - 8 + (readDiv st.mem (p - 8)).size - 8) (⟨(readDiv st.mem (p - 8)).size, false, true, true, (readDiv st.mem (p - 8)).epilogue⟩ : Divider)) (p - 8 + 8) 0) (p - 8 + 8 + 8) (st.freeLists (find_free_list (readDiv st.mem (p - 8)).size))) (st.freeLists (find_free_list (readDiv st.mem (p - 8)).size))
          (p - 8 + 8)
      else
        storeW (storeW (writeDiv (writeDiv (writeDiv (writeDiv (writeDiv st.mem (p - 8) (⟨(readDiv st.mem (p - 8)).size, false, true, true, (readDiv st.mem (p - 8)).epilogue⟩ : Divider)) (p - 8) (⟨(readDiv st.mem (p - 8)).size, false, true, true, (readDiv st.mem (p - 8)).epilogue⟩ : Divider)) (p - 8 + (readDiv st.mem (p - 8)).size - 8) (⟨(readDiv st.mem (p - 8)).size, false, true, true, (readDiv st.mem (p - 8)).epilogue⟩ : Divider)) (p - 8 + (readDiv st.mem (p - 8)).size) (⟨(readDiv st.mem (p - 8 + (readDiv st.mem (p - 8)).size)).size, true, false, (readDiv st.mem (p - 8 + (readDiv st.mem (p - 8)).size)).next_alloc, (readDiv st.mem (p - 8 + (readDiv st.mem (p - 8)).size)).epilogue⟩ : Divider)) (p - 8 + (readDiv st.mem (p - 8)).size - 8) (⟨(readDiv st.mem (p - 8)).size, false, true, true, (readDiv st.mem (p - 8)).epilogue⟩ : Divider)) (p - 8 + 8) 0) (p - 8 + 8 + 8) (st.freeLists (find_free_list (readDiv st.mem (p - 8)).size))) ∧
      (mm_free st p).brk = st.brk := by
    have HA : add_to_free_list (free_mark st p) (p - 8) =
        { free_mark st p with
            mem := if st.freeLists (find_free_list (readDiv st.mem (p - 8)).size) ≠ 0 then
              storeW (storeW (storeW (writeDiv (writeDiv (writeDiv (writeDiv (writeDiv st.mem (p - 8) (⟨(readDiv st.mem (p - 8)).size, false, true, true, (readDiv st.mem (p - 8)).epilogue⟩ : Divider)) (p - 8) (⟨(readDiv st.mem (p - 8)).size, false, true, true, (readDiv st.mem (p - 8)).epilogue⟩ : Divider)) (p - 8 + (readDiv st.mem (p - 8)).size - 8) (⟨(readDiv st.mem (p - 8)).size, false, true, true, (readDiv st.mem (p - 8)).epilogue⟩ : Divider)) (p - 8 + (readDiv st.mem (p - 8)).size) (⟨(readDiv st.mem (p - 8 + (readDiv st.mem (p - 8)).size)).size, true, false, (readDiv st.mem (p - 8 + (readDiv st.mem (p - 8)).size)).next_alloc, (readDiv st.mem (p - 8 + (readDiv st.mem (p - 8)).size)).epilogue⟩ : Divider)) (p - 8 + (readDiv st.mem (p - 8)).size - 8) (⟨(readDiv st.mem (p - 8)).size, false, true, true, (readDiv st.mem (p - 8)).epilogue⟩ : Divider)) (p - 8 + 8) 0) (p - 8 + 8 + 8) (st.freeLists (find_free_list (readDiv st.mem (p - 8)).size))) (st.freeLists (find_free_list (readDiv st.mem (p - 8)).size))
                (p - 8 + 8)
            else
              storeW (storeW (writeDiv (writeDiv (writeDiv (writeDiv (writeDiv st.mem (p - 8) (⟨(readDiv st.mem (p - 8)).size, false, true, true, (readDiv st.mem (p - 8)).epilogue⟩ : Divider)) (p - 8) (⟨(readDiv st.mem (p - 8)).size, false, true, true, (readDiv st.mem (p - 8)).epilogue⟩ : Divider)) (p - 8 + (readDiv st.mem (p - 8)).size - 8) (⟨(readDiv st.mem (p - 8)).size, false, true, true, (readDiv st.mem (p - 8)).epilogue⟩ : Divider)) (p - 8 + (readDiv st.mem (p - 8)).size) (⟨(readDiv st.mem (p - 8 + (readDiv st.mem (p - 8)).size)).size, true, false, (readDiv st.mem (p - 8 + (readDiv st.mem (p - 8)).size)).next_alloc, (readDiv st.mem (p - 8 + (readDiv st.mem (p - 8)).size)).epilogue⟩ : Divider)) (p - 8 + (readDiv st.mem (p - 8)).size - 8) (⟨(readDiv st.mem (p - 8)).size, false, true, true, (readDiv st.mem (p - 8)).epilogue⟩ : Divider)) (p - 8 + 8) 0) (p - 8 + 8 + 8) (st.freeLists (find_free_list (readDiv st.mem (p - 8)).size)),
            freeLists := fun i =>
              if i = find_free_list (readDiv st.mem (p - 8)).size then p - 8 + 8 else st.freeLists i } := by
      simp only [add_to_free_list, free_block_from_header, DIVIDER_SIZE, FM1, FM4, E4f, E4]
    have HSEL : mm_free st p = add_to_free_list (free_mark st p) (p - 8) := by
      simp only [mm_free, header_from_data, header_to_header, DIVIDER_SIZE, if_neg hp0,
        E4f, Bool.not_true, Bool.false_and, Bool.and_false, ite_cond_true, ite_cond_false,
        Bool.false_eq_true, if_true, if_false]
    rw [HSEL, HA]
    exact ⟨rfl, FM2⟩
  refine ⟨?_, ?_, HMEM.2⟩
  · intro x hx hhx
    rw [HMEM.1]
    split
    · unfold writeDiv
      rw [loadByte_storeW_out _ _ _ _ (by omega), loadByte_storeW_out _ _ _ _ (by omega),
        loadByte_storeW_out _ _ _ _ (by omega), loadByte_storeW_out _ _ _ _ (by omega),
        loadByte_storeW_out _ _ _ _ (by omega), loadByte_storeW_out _ _ _ _ (by omega),
        loadByte_storeW_out _ _ _ _ (by omega), loadByte_storeW_out _ _ _ _ (by omega)]
    · unfold writeDiv
      rw [loadByte_storeW_out _ _ _ _ (by omega), loadByte_storeW_out _ _ _ _ (by omega),
        loadByte_storeW_out _ _ _ _ (by omega), loadByte_storeW_out _ _ _ _ (by omega),
        loadByte_storeW_out _ _ _ _ (by omega), loadByte_storeW_out _ _ _ _ (by omega),
        loadByte_storeW_out _ _ _ _ (by omega)]
  · rw [HMEM.1]
    split
    · rename_i hne
      have hh : p ≤ st.freeLists (find_free_list (readDiv st.mem (p - 8)).size) := by
        rcases hhd with hhd | hhd
        · exact absurd hhd hne
        · exact hhd
      rw [readDiv, loadW_congr_bytes _ (writeDiv (writeDiv (writeDiv (writeDiv (writeDiv st.mem (p - 8) (⟨(readDiv st.mem (p - 8)).size, false, true, true, (readDiv st.mem (p - 8)).epilogue⟩ : Divider)) (p - 8) (⟨(readDiv st.mem (p - 8)).size, false, true, true, (readDiv st.mem (p - 8)).epilogue⟩ : Divider)) (p - 8 + (readDiv st.mem (p - 8)).size - 8) (⟨(readDiv st.mem (p - 8)).size, false, true, true, (readDiv st.mem (p - 8)).epilogue⟩ : Divider)) (p - 8 + (readDiv st.mem (p - 8)).size) (⟨(readDiv st.mem (p - 8 + (readDiv st.mem (p - 8)).size)).size, true, false, (readDiv st.mem (p - 8 + (readDiv st.mem (p - 8)).size)).next_alloc, (readDiv st.mem (p - 8 + (readDiv st.mem (p - 8)).size)).epilogue⟩ : Divider)) (p - 8 + (readDiv st.mem (p - 8)).size - 8) (⟨(readDiv st.mem (p - 8)).size, false, true, true, (readDiv st.mem (p - 8)).epilogue⟩ : Divider)) _ ?_]
      · exact E4
      · intro i hi
        rw [loadByte_storeW_out _ _ _ _ (by omega), loadByte_storeW_out _ _ _ _ (by omega),
          loadByte_storeW_out _ _ _ _ (by omega)]
    · rw [readDiv, loadW_congr_bytes _ (writeDiv (writeDiv (writeDiv (writeDiv (writeDiv st.mem (p - 8) (⟨(readDiv st.mem (p - 8)).size, false, true, true, (readDiv st.mem (p - 8)).epilogue⟩ : Divider)) (p - 8) (⟨(readDiv st.mem (p - 8)).size, false, true, true, (readDiv st.mem (p - 8)).epilogue⟩ : Divider)) (p - 8 + (readDiv st.mem (p - 8)).size - 8) (⟨(readDiv st.mem (p - 8)).size, false, true, true, (readDiv st.mem (p - 8)).epilogue⟩ : Divider)) (p - 8 + (readDiv st.mem (p - 8)).size) (⟨(readDiv st.mem (p - 8 + (readDiv st.mem (p - 8)).size)).size, true, false, (readDiv st.mem (p - 8 + (readDiv st.mem (p - 8)).size)).next_alloc, (readDiv st.mem (p - 8 + (readDiv st.mem (p - 8)).size)).epilogue⟩ : Divider)) (p - 8 + (readDiv st.mem (p - 8)).size - 8) (⟨(readDiv st.mem (p - 8)).size, false, true, true, (readDiv st.mem (p - 8)).epilogue⟩ : Divider)) _ ?_]
      · exact E4
      · intro i hi
        rw [loadByte_storeW_out _ _ _ _ (by omega), loadByte_storeW_out _ _ _ _ (by omega)]

/-- Frame law: a word read entirely outside the copied range is
unchanged by memcpy. -/
theorem loadW_memcpy_out (m : Nat → Nat) (dst src len b : Nat)
    (h : b + 8 ≤ dst ∨ dst + len ≤ b) :
    loadW (memcpy m dst src len) b = loadW m b := by
  apply loadW_congr_bytes
  intro i hi
  exact loadByte_memcpy_out _ _ _ _ _ (by omega)

/-- Frame law for divider reads over memcpy. -/
theorem readDiv_memcpy_out (m : Nat → Nat) (dst src len b : Nat)
    (h : b + 8 ≤ dst ∨ dst + len ≤ b) :
    readDiv (memcpy m dst src len) b = readDiv m b := by
  unfold readDiv
  rw [loadW_memcpy_out _ _ _ _ _ h]

/-- Reduction of an if on the always-false test of transfer. -/
theorem ite_true_false {α : Sort u_1} (a b : α) : (if true = false then a else b) = b := by
  simp

/-- Replaying an appended trace is replaying the parts in order. -/
theorem foldStores_append (L1 L2 : List (Nat × Nat)) :
    ∀ m : Nat → Nat, foldStores m (L1 ++ L2) = foldStores (foldStores m L1) L2 := by
  induction L1 with
  | nil => intro m; rfl
  | cons av rest ih => intro m; exact ih (storeW m av.1 av.2)

/-- A byte off every store of a trace is unchanged by the replay. -/
theorem loadByte_foldStores_out (x : Nat) :
    ∀ (L : List (Nat × Nat)) (m : Nat → Nat),
      (∀ av ∈ L, x < av.1 ∨ av.1 + 8 ≤ x) →
      loadByte (foldStores m L) x = loadByte m x := by
  intro L
  induction L with
  | nil => intro m _; rfl
  | cons av rest ih =>
    intro m hall
    rw [show foldStores m (av :: rest) = foldStores (storeW m av.1 av.2) rest from rfl,
      ih _ (fun a ha => hall a (List.mem_cons_of_mem _ ha)),
      loadByte_storeW_out _ _ _ _ (hall av (List.mem_cons_self av rest))]

/-- A divider read off a store is unchanged. -/
theorem readDiv_storeW_out (m : Nat → Nat) (a v b : Nat) (h : b + 8 ≤ a ∨ a + 8 ≤ b) :
    readDiv (storeW m a v) b = readDiv m b := by
  unfold readDiv
  rw [loadW_storeW_out _ _ _ _ h]

/-- If every store of a trace either misses the divider cell at b or
stores a word decoding to a free divider there, a free divider at b
stays free across the replay. -/
theorem readDiv_foldStores_allocfalse (b : Nat) :
    ∀ (L : List (Nat × Nat)) (m : Nat → Nat),
      (readDiv m b).alloc = false →
      (∀ av ∈ L, (av.1 + 8 ≤ b ∨ b + 8 ≤ av.1) ∨
        (av.1 = b ∧ (decodeDiv (av.2 % 2 ^ 64)).alloc = false)) →
      (readDiv (foldStores m L) b).alloc = false := by
  intro L
  induction L with
  | nil =>
    intro m h0 _
    exact h0
  | cons av rest ih =>
    intro m h0 hall
    rw [show foldStores m (av :: rest) = foldStores (storeW m av.1 av.2) rest from rfl]
    refine ih _ ?_ (fun a ha => hall a (List.mem_cons_of_mem _ ha))
    rcases hall av (List.mem_cons_self av rest) with hav | ⟨he, hv⟩
    · rw [readDiv_storeW_out _ _ _ _ (Or.symm hav)]
      exact h0
    · subst he
      rw [show readDiv (storeW m av.1 av.2) av.1 = decodeDiv (av.2 % 2 ^ 64) from by
        unfold readDiv
        rw [loadW_storeW_self]]
      exact hv

/-- change_alloc's memory is the replay of its trace. -/
theorem change_alloc_mem_trace (st : HeapState) (h : Nat) (dummy : Divider) :
    (change_alloc st h dummy).mem = foldStores st.mem (change_alloc_trace st h dummy) := by
  simp only [change_alloc, change_alloc_trace]
  split <;> split <;> split <;> rfl

/-- Replaying a one-step trace. -/
theorem foldStores_cons (m : Nat → Nat) (av : Nat × Nat) (L : List (Nat × Nat)) :
    foldStores m (av :: L) = foldStores (storeW m av.1 av.2) L := rfl

/-- Replaying the empty trace. -/
theorem foldStores_nil (m : Nat → Nat) : foldStores m [] = m := rfl

/-- free_mark's memory is the replay of its trace. -/
theorem free_mark_mem_trace (st : HeapState) (p : Nat) :
    (free_mark st p).mem = foldStores st.mem (free_mark_trace st p) := by
  simp only [free_mark, free_mark_trace]
  split
  · rw [foldStores_append, foldStores_cons, foldStores_nil, foldStores_cons]
    dsimp only
    rw [show storeW st.mem (header_from_data p) (encodeDiv (make_divider (readDiv st.mem (header_from_data p)).size false (readDiv st.mem (header_from_data p)).prev_alloc (readDiv st.mem (header_to_header st.mem (header_from_data p))).alloc (readDiv st.mem (header_from_data p)).epilogue)) =
      ({ st with mem := writeDiv st.mem (header_from_data p) (make_divider (readDiv st.mem (header_from_data p)).size false (readDiv st.mem (header_from_data p)).prev_alloc (readDiv st.mem (header_to_header st.mem (header_from_data p))).alloc (readDiv st.mem (header_from_data p)).epilogue) } : HeapState).mem from rfl]
    rw [← change_alloc_mem_trace]
    rfl
  · rfl

/-- remove_from_free_list's memory is the replay of its trace. -/
theorem remove_from_free_list_mem_trace (st : HeapState) (h : Nat) :
    (remove_from_free_list st h).mem = foldStores st.mem (remove_from_free_list_trace st h) := by
  simp only [remove_from_free_list, remove_from_free_list_trace]
  split <;> split <;> rfl

/-- add_to_free_list's memory is the replay of its trace. -/
theorem add_to_free_list_mem_trace (st : HeapState) (h : Nat) :
    (add_to_free_list st h).mem = foldStores st.mem (add_to_free_list_trace st h) := by
  simp only [add_to_free_list, add_to_free_list_trace]
  split <;> rfl

/-- coalesce's memory is the replay of its trace. -/
theorem coalesce_mem_trace (st : HeapState) (h f : Nat) :
    (coalesce st h f).mem = foldStores st.mem (coalesce_trace st h f) := by
  simp only [coalesce, coalesce_trace]
  split <;> (simp only [foldStores, foldStores_append, change_alloc_mem_trace]; rfl)

/-- free's memory is the replay of its trace, whichever coalescing
branch runs. -/
theorem free_mem_trace (st : HeapState) (p : Nat) :
    (mm_free st p).mem = foldStores st.mem (free_trace st p) := by
  simp only [mm_free, free_trace]
  split
  · rfl
  · split
    · simp only [add_to_free_list_mem_trace, coalesce_mem_trace,
        remove_from_free_list_mem_trace, free_mark_mem_trace, foldStores_append]
    · split
      · simp only [add_to_free_list_mem_trace, coalesce_mem_trace,
          remove_from_free_list_mem_trace, free_mark_mem_trace, foldStores_append]
      · split
        · simp only [add_to_free_list_mem_trace, coalesce_mem_trace,
            remove_from_free_list_mem_trace, free_mark_mem_trace, foldStores_append]
        · simp only [add_to_free_list_mem_trace, free_mark_mem_trace, foldStores_append]

/-- Every trace of the marking phase opens with the store that marks the
header free. -/
theorem free_mark_trace_head_tail (st : HeapState) (p : Nat) :
    free_mark_trace st p =
      (header_from_data p, encodeDiv (make_divider (readDiv st.mem (header_from_data p)).size false (readDiv st.mem (header_from_data p)).prev_alloc (readDiv st.mem (header_to_header st.mem (header_from_data p))).alloc (readDiv st.mem (header_from_data p)).epilogue)) :: (free_mark_trace st p).tail := by
  simp only [free_mark_trace]
  split
  · rfl
  · rfl

/-- Every trace of free on a non-null pointer opens with the store that
marks the header free. -/
theorem free_trace_head_tail (st : HeapState) (p : Nat) (hp : ¬ p = 0) :
    free_trace st p =
      (header_from_data p, encodeDiv (make_divider (readDiv st.mem (header_from_data p)).size false (readDiv st.mem (header_from_data p)).prev_alloc (readDiv st.mem (header_to_header st.mem (header_from_data p))).alloc (readDiv st.mem (header_from_data p)).epilogue)) :: (free_trace st p).tail := by
  simp only [free_trace]
  rw [if_neg hp]
  split
  · rw [free_mark_trace_head_tail]
    rfl
  · split
    · rw [free_mark_trace_head_tail]
      rfl
    · split
      · rw [free_mark_trace_head_tail]
        rfl
      · rw [free_mark_trace_head_tail]
        rfl

/-- free marks the old header free and no later store of any coalescing
branch re-allocates it: whatever the branch, every store after the mark
either misses the header cell or (as the merged header of a forward
coalesce does) stores a free divider onto it. -/
theorem free_header_unalloc (st : HeapState) (p : Nat) (hp : ¬ p = 0)
    (hall : ∀ av ∈ (free_trace st p).tail,
      (av.1 + 8 ≤ p - 8 ∨ p - 8 + 8 ≤ av.1) ∨
      (av.1 = p - 8 ∧ (decodeDiv (av.2 % 2 ^ 64)).alloc = false)) :
    (readDiv (mm_free st p).mem (p - 8)).alloc = false := by
  rw [show (mm_free st p).mem = foldStores st.mem (free_trace st p) from free_mem_trace st p]
  rw [free_trace_head_tail st p hp]
  rw [foldStores_cons]
  refine readDiv_foldStores_allocfalse (p - 8) _ _ ?_ hall
  dsimp only
  rw [show storeW st.mem (header_from_data p) (encodeDiv (make_divider (readDiv st.mem (header_from_data p)).size false (readDiv st.mem (header_from_data p)).prev_alloc (readDiv st.mem (header_to_header st.mem (header_from_data p))).alloc (readDiv st.mem (header_from_data p)).epilogue)) =
    writeDiv st.mem (p - 8) (make_divider (readDiv st.mem (header_from_data p)).size false (readDiv st.mem (header_from_data p)).prev_alloc (readDiv st.mem (header_to_header st.mem (header_from_data p))).alloc (readDiv st.mem (header_from_data p)).epilogue) from rfl]
  rw [readDiv_writeDiv_self _ _ _ (make_divider_size_lt _ _ _ _ _)]
  rw [make_divider_alloc]

/-- Claim C7: a reallocate that moves the block copies the first
min(old payload, new request) bytes from the old payload to the returned
pointer and frees the old block, whichever coalescing branch the final
free of the old block takes.  The side conditions say the heap is in the
healthy configuration realloc runs in: the internal malloc returned a
block of sufficient size and left the old header and payload untouched,
every store of the final free misses the returned payload (free only
touches the freed block, its neighbors and free-list links, all disjoint
from an allocated block), and every store after the header mark either
misses the old header cell or lays a free divider onto it (as the merged
header of a forward coalesce does). -/
theorem claim_C7 (st st1 : HeapState) (p old_n n q : Nat)
    (hp16 : 16 ≤ p) (hq16 : 16 ≤ q) (hn : 0 < n)
    (hso : old_n + 8 ≤ (readDiv st.mem (p - 8)).size)
    (hmove : (readDiv st.mem (p - 8)).size - 8 < n)
    (heq : malloc st n = (q, st1))
    (hsq : n + 8 ≤ (readDiv st1.mem (q - 8)).size)
    (hold : readDiv st1.mem (p - 8) = readDiv st.mem (p - 8))
    (hpay : ∀ i, i < min old_n n → loadByte st1.mem (p + i) = loadByte st.mem (p + i))
    (hfree : ∀ av ∈ free_trace { st1 with mem := memcpy st1.mem q p (if (readDiv st.mem (p - 8)).size < (readDiv st1.mem (q - 8)).size then usub64 (readDiv st.mem (p - 8)).size 8 else usub64 (readDiv st1.mem (q - 8)).size 8) } p, q + min old_n n ≤ av.1 ∨ av.1 + 8 ≤ q)
    (hfreed : ∀ av ∈ (free_trace { st1 with mem := memcpy st1.mem q p (if (readDiv st.mem (p - 8)).size < (readDiv st1.mem (q - 8)).size then usub64 (readDiv st.mem (p - 8)).size 8 else usub64 (readDiv st1.mem (q - 8)).size 8) } p).tail,
      (av.1 + 8 ≤ p - 8 ∨ p - 8 + 8 ≤ av.1) ∨
      (av.1 = p - 8 ∧ (decodeDiv (av.2 % 2 ^ 64)).alloc = false)) :
    (realloc st p n).1 = q ∧
    (∀ i, i < min old_n n →
        loadByte (realloc st p n).2.mem (q + i) = loadByte st.mem (p + i)) ∧
    (readDiv (realloc st p n).2.mem (p - 8)).alloc = false := by
  have hltS : (readDiv st.mem (p - 8)).size < 2 ^ 60 := readDiv_size_lt _ _
  have hltQ : (readDiv st1.mem (q - 8)).size < 2 ^ 60 := readDiv_size_lt _ _
  have hp0 : ¬ p = 0 := by omega
  have hn0 : ¬ n = 0 := by omega
  have hp8 : p - 8 + 8 = p := by omega
  have hq8 : q - 8 + 8 = q := by omega
  have hcond : ¬ (n ≤ usub64 (readDiv st.mem (p - 8)).size 8) := by
    unfold usub64
    omega
  have hTS1 : min old_n n ≤ (if (readDiv st.mem (p - 8)).size < (readDiv st1.mem (q - 8)).size then usub64 (readDiv st.mem (p - 8)).size 8 else usub64 (readDiv st1.mem (q - 8)).size 8) := by
    unfold usub64
    split <;> omega
  have HR : realloc st p n = (q, mm_free { st1 with mem := memcpy st1.mem q p (if (readDiv st.mem (p - 8)).size < (readDiv st1.mem (q - 8)).size then usub64 (readDiv st.mem (p - 8)).size 8 else usub64 (readDiv st1.mem (q - 8)).size 8) } p) := by
    simp only [realloc, transfer, header_from_data, data_from_header, DIVIDER_SIZE, heq,
      hold, hp8, hq8, if_neg hp0, if_neg hn0, if_neg hcond, ite_true_false]
  refine ⟨by rw [HR], ?_, ?_⟩
  · intro i hi
    rw [HR]
    have h1 : loadByte (mm_free { st1 with mem := memcpy st1.mem q p (if (readDiv st.mem (p - 8)).size < (readDiv st1.mem (q - 8)).size then usub64 (readDiv st.mem (p - 8)).size 8 else usub64 (readDiv st1.mem (q - 8)).size 8) } p).mem (q + i) =
        loadByte ({ st1 with mem := memcpy st1.mem q p (if (readDiv st.mem (p - 8)).size < (readDiv st1.mem (q - 8)).size then usub64 (readDiv st.mem (p - 8)).size 8 else usub64 (readDiv st1.mem (q - 8)).size 8) } : HeapState).mem (q + i) := by
      rw [show (mm_free { st1 with mem := memcpy st1.mem q p (if (readDiv st.mem (p - 8)).size < (readDiv st1.mem (q - 8)).size then usub64 (readDiv st.mem (p - 8)).size 8 else usub64 (readDiv st1.mem (q - 8)).size 8) } p).mem =
        foldStores ({ st1 with mem := memcpy st1.mem q p (if (readDiv st.mem (p - 8)).size < (readDiv st1.mem (q - 8)).size then usub64 (readDiv st.mem (p - 8)).size 8 else usub64 (readDiv st1.mem (q - 8)).size 8) } : HeapState).mem (free_trace { st1 with mem := memcpy st1.mem q p (if (readDiv st.mem (p - 8)).size < (readDiv st1.mem (q - 8)).size then usub64 (readDiv st.mem (p - 8)).size 8 else usub64 (readDiv st1.mem (q - 8)).size 8) } p) from free_mem_trace _ p]
      refine loadByte_foldStores_out (q + i) _ _ ?_
      intro av hm
      rcases hfree av hm with hc | hc
      · left
        omega
      · right
        omega
    rw [h1]
    dsimp only
    rw [loadByte_memcpy_in _ _ _ _ _ ⟨by omega, by omega⟩,
      show p + (q + i - q) = p + i from by omega]
    exact hpay i hi
  · rw [HR]
    exact free_header_unalloc { st1 with mem := memcpy st1.mem q p (if (readDiv st.mem (p - 8)).size < (readDiv st1.mem (q - 8)).size then usub64 (readDiv st.mem (p - 8)).size 8 else usub64 (readDiv st1.mem (q - 8)).size 8) } p hp0 hfreed

/-- Witness for claim C7 on the concrete move scenario: a 32-byte block
with junk payload reallocated to 1000 bytes; the new payload repeats the
old bytes and the old block is freed. -/
theorem claim_C7_witness :
    (malloc c7_t1.2 1000).1 = 64 ∧ c7_t1.1 = 32 ∧
    (realloc c7_t1.2 32 1000).1 = 64 ∧
    loadByte (realloc c7_t1.2 32 1000).2.mem (64 + 5) = loadByte c7_t1.2.mem (32 + 5) ∧
    (readDiv (realloc c7_t1.2 32 1000).2.mem (32 - 8)).alloc = false := by
  have hq : (malloc c7_t1.2 1000).1 = 64 := by decide
  have heq : malloc c7_t1.2 1000 = (64, (malloc c7_t1.2 1000).2) := by rw [← hq]
  have H := claim_C7 c7_t1.2 (malloc c7_t1.2 1000).2 32 16 1000 64
    (by decide) (by decide) (by decide) (by decide) (by decide) heq
    (by decide) (by decide) (by decide) (by decide) (by decide)
  exact ⟨hq, by decide, H.1, H.2.1 5 (by decide), H.2.2⟩

set_option maxHeartbeats 4000000 in
/-- The header that change_alloc leaves in place when marking a block
free, allowing either neighbor to be free: whatever the conditional
footer and predecessor updates do, they land outside the header. -/
theorem change_alloc_reads_h (st : HeapState) (h : Nat) (d : Divider)
    (ha : d.alloc = false) (hsz : 16 ≤ d.size) (hlt : d.size < 2 ^ 60) (h16 : 16 ≤ h)
    (hpf : d.prev_alloc = true ∨ (8 ≤ (readDiv st.mem (h - 8)).size ∧ (readDiv st.mem (h - 8)).size + 8 ≤ h)) :
    readDiv (change_alloc st h d).mem h = d := by
  have hltN : (readDiv st.mem (h + d.size)).size < 2 ^ 60 := readDiv_size_lt _ _
  have hltP : (readDiv st.mem (h - 8)).size < 2 ^ 60 := readDiv_size_lt _ _
  have e0 : readDiv (writeDiv st.mem h d) h = d := readDiv_writeDiv_self _ _ _ hlt
  have e1 : readDiv (writeDiv (writeDiv st.mem h d) (h + d.size - 8) d) h = d := by
    rw [readDiv_writeDiv_out _ _ _ _ (by omega)]
    exact e0
  have e2 : readDiv (writeDiv (writeDiv st.mem h d) (h + d.size - 8) d) (h + d.size) = (readDiv st.mem (h + d.size)) := by
    rw [readDiv_writeDiv_out _ _ _ _ (by omega), readDiv_writeDiv_out _ _ _ _ (by omega)]
  have eD2 : make_divider (readDiv st.mem (h + d.size)).size (readDiv st.mem (h + d.size)).alloc d.alloc (readDiv st.mem (h + d.size)).next_alloc (readDiv st.mem (h + d.size)).epilogue
      = (⟨(readDiv st.mem (h + d.size)).size, (readDiv st.mem (h + d.size)).alloc, false, (readDiv st.mem (h + d.size)).next_alloc, (readDiv st.mem (h + d.size)).epilogue⟩ : Divider) := by
    rw [ha, make_divider_eq _ _ _ _ _ hltN]
  have e3 : readDiv (writeDiv (writeDiv (writeDiv st.mem h d) (h + d.size - 8) d) (h + d.size) (⟨(readDiv st.mem (h + d.size)).size, (readDiv st.mem (h + d.size)).alloc, false, (readDiv st.mem (h + d.size)).next_alloc, (readDiv st.mem (h + d.size)).epilogue⟩ : Divider)) (h + d.size) = (⟨(readDiv st.mem (h + d.size)).size, (readDiv st.mem (h + d.size)).alloc, false, (readDiv st.mem (h + d.size)).next_alloc, (readDiv st.mem (h + d.size)).epilogue⟩ : Divider) :=
    readDiv_writeDiv_self _ _ _ hltN
  have e4 : readDiv (writeDiv (writeDiv (writeDiv st.mem h d) (h + d.size - 8) d) (h + d.size) (⟨(readDiv st.mem (h + d.size)).size, (readDiv st.mem (h + d.size)).alloc, false, (readDiv st.mem (h + d.size)).next_alloc, (readDiv st.mem (h + d.size)).epilogue⟩ : Divider)) h = d := by
    rw [readDiv_writeDiv_out _ _ _ _ (by omega)]
    exact e1
  have ePFD : make_divider (readDiv st.mem (h - 8)).size (readDiv st.mem (h - 8)).alloc (readDiv st.mem (h - 8)).prev_alloc false (readDiv st.mem (h - 8)).epilogue
      = (⟨(readDiv st.mem (h - 8)).size, (readDiv st.mem (h - 8)).alloc, (readDiv st.mem (h - 8)).prev_alloc, false, (readDiv st.mem (h - 8)).epilogue⟩ : Divider) := by
    rw [make_divider_eq _ _ _ _ _ hltP]
  have hc0 : (!d.alloc) = true := by simp [ha]
  simp only [change_alloc, footer_from_header, header_to_header, DIVIDER_SIZE, e0, e1, e2,
    e3, e4, eD2, hc0, ite_cond_true, ite_cond_false, Bool.false_eq_true, if_true, if_false]
  have e5 : readDiv (writeDiv (writeDiv (writeDiv (writeDiv st.mem h d) (h + d.size - 8) d) (h + d.size) (⟨(readDiv st.mem (h + d.size)).size, (readDiv st.mem (h + d.size)).alloc, false, (readDiv st.mem (h + d.size)).next_alloc, (readDiv st.mem (h + d.size)).epilogue⟩ : Divider)) (h + d.size + (readDiv st.mem (h + d.size)).size - 8) (⟨(readDiv st.mem (h + d.size)).size, (readDiv st.mem (h + d.size)).alloc, false, (readDiv st.mem (h + d.size)).next_alloc, (readDiv st.mem (h + d.size)).epilogue⟩ : Divider)) h = d := by
    rw [readDiv_writeDiv_out _ _ _ _ (by omega)]
    exact e4
  split
  · rw [e5]
    split
    · rename_i hprev2
      have hpv : d.prev_alloc = false := by simpa using hprev2
      have hpfr : 8 ≤ (readDiv st.mem (h - 8)).size ∧ (readDiv st.mem (h - 8)).size + 8 ≤ h := by
        rcases hpf with hh | hh
        · rw [hh] at hpv
          exact absurd hpv (by simp)
        · exact hh
      have e6 : readDiv (writeDiv (writeDiv (writeDiv (writeDiv st.mem h d) (h + d.size - 8) d) (h + d.size) (⟨(readDiv st.mem (h + d.size)).size, (readDiv st.mem (h + d.size)).alloc, false, (readDiv st.mem (h + d.size)).next_alloc, (readDiv st.mem (h + d.size)).epilogue⟩ : Divider)) (h + d.size + (readDiv st.mem (h + d.size)).size - 8) (⟨(readDiv st.mem (h + d.size)).size, (readDiv st.mem (h + d.size)).alloc, false, (readDiv st.mem (h + d.size)).next_alloc, (readDiv st.mem (h + d.size)).epilogue⟩ : Divider)) (h - 8) = (readDiv st.mem (h - 8)) := by
        rw [readDiv_writeDiv_out _ _ _ _ (by omega), readDiv_writeDiv_out _ _ _ _ (by omega),
          readDiv_writeDiv_out _ _ _ _ (by omega), readDiv_writeDiv_out _ _ _ _ (by omega)]
      rw [e6, ha, ePFD]
      have e7 : readDiv (writeDiv (writeDiv (writeDiv (writeDiv (writeDiv st.mem h d) (h + d.size - 8) d) (h + d.size) (⟨(readDiv st.mem (h + d.size)).size, (readDiv st.mem (h + d.size)).alloc, false, (readDiv st.mem (h + d.size)).next_alloc, (readDiv st.mem (h + d.size)).epilogue⟩ : Divider)) (h + d.size + (readDiv st.mem (h + d.size)).size - 8) (⟨(readDiv st.mem (h + d.size)).size, (readDiv st.mem (h + d.size)).alloc, false, (readDiv st.mem (h + d.size)).next_alloc, (readDiv st.mem (h + d.size)).epilogue⟩ : Divider)) (h - 8) (⟨(readDiv st.mem (h - 8)).size, (readDiv st.mem (h - 8)).alloc, (readDiv st.mem (h - 8)).prev_alloc, false, (readDiv st.mem (h - 8)).epilogue⟩ : Divider)) (h - 8) = (⟨(readDiv st.mem (h - 8)).size, (readDiv st.mem (h - 8)).alloc, (readDiv st.mem (h - 8)).prev_alloc, false, (readDiv st.mem (h - 8)).epilogue⟩ : Divider) :=
        readDiv_writeDiv_self _ _ _ hltP
      rw [e7]
      rw [readDiv_writeDiv_out _ _ _ _ (by dsimp only; omega),
        readDiv_writeDiv_out _ _ _ _ (by omega)]
      exact e5
    · exact e5
  · split
    · rename_i hprev2
      have hpv : d.prev_alloc = false := by
        rw [e4] at hprev2
        simpa using hprev2
      have hpfr : 8 ≤ (readDiv st.mem (h - 8)).size ∧ (readDiv st.mem (h - 8)).size + 8 ≤ h := by
        rcases hpf with hh | hh
        · rw [hh] at hpv
          exact absurd hpv (by simp)
        · exact hh
      have e6 : readDiv (writeDiv (writeDiv (writeDiv st.mem h d) (h + d.size - 8) d) (h + d.size) (⟨(readDiv st.mem (h + d.size)).size, (readDiv st.mem (h + d.size)).alloc, false, (readDiv st.mem (h + d.size)).next_alloc, (readDiv st.mem (h + d.size)).epilogue⟩ : Divider)) (h - 8) = (readDiv st.mem (h - 8)) := by
        rw [readDiv_writeDiv_out _ _ _ _ (by omega), readDiv_writeDiv_out _ _ _ _ (by omega),
          readDiv_writeDiv_out _ _ _ _ (by omega)]
      rw [e4, e6, ha, ePFD]
      have e7 : readDiv (writeDiv (writeDiv (writeDiv (writeDiv st.mem h d) (h + d.size - 8) d) (h + d.size) (⟨(readDiv st.mem (h + d.size)).size, (readDiv st.mem (h + d.size)).alloc, false, (readDiv st.mem (h + d.size)).next_alloc, (readDiv st.mem (h + d.size)).epilogue⟩ : Divider)) (h - 8) (⟨(readDiv st.mem (h - 8)).size, (readDiv st.mem (h - 8)).alloc, (readDiv st.mem (h - 8)).prev_alloc, false, (readDiv st.mem (h - 8)).epilogue⟩ : Divider)) (h - 8) = (⟨(readDiv st.mem (h - 8)).size, (readDiv st.mem (h - 8)).alloc, (readDiv st.mem (h - 8)).prev_alloc, false, (readDiv st.mem (h - 8)).epilogue⟩ : Divider) :=
        readDiv_writeDiv_self _ _ _ hltP
      rw [e7]
      rw [readDiv_writeDiv_out _ _ _ _ (by dsimp only; omega),
        readDiv_writeDiv_out _ _ _ _ (by omega)]
      exact e4
    · exact e4


set_option maxHeartbeats 4000000 in
/-- The header that the marking phase of free leaves at the freed block:
size and prev_alloc and epilogue survive, alloc drops to false, and
next_alloc takes the successor's alloc bit read before the call. -/
theorem free_mark_reads_h (st : HeapState) (p : Nat)
    (hp : 24 ≤ p)
    (hsz : 16 ≤ (readDiv st.mem (p - 8)).size)
    (hpf : (readDiv st.mem (p - 8)).prev_alloc = true ∨
      (8 ≤ (readDiv st.mem (p - 16)).size ∧ (readDiv st.mem (p - 16)).size + 8 ≤ p - 8)) :
    readDiv (free_mark st p).mem (p - 8) = (⟨(readDiv st.mem (p - 8)).size, false, (readDiv st.mem (p - 8)).prev_alloc, (readDiv st.mem (p - 8 + (readDiv st.mem (p - 8)).size)).alloc, (readDiv st.mem (p - 8)).epilogue⟩ : Divider) := by
  have hlt : (readDiv st.mem (p - 8)).size < 2 ^ 60 := readDiv_size_lt _ _
  have HCD1 : make_divider (readDiv st.mem (p - 8)).size false (readDiv st.mem (p - 8)).prev_alloc (readDiv st.mem (p - 8 + (readDiv st.mem (p - 8)).size)).alloc (readDiv st.mem (p - 8)).epilogue = (⟨(readDiv st.mem (p - 8)).size, false, (readDiv st.mem (p - 8)).prev_alloc, (readDiv st.mem (p - 8 + (readDiv st.mem (p - 8)).size)).alloc, (readDiv st.mem (p - 8)).epilogue⟩ : Divider) :=
    make_divider_eq _ _ _ _ _ hlt
  have E1 : readDiv (writeDiv st.mem (p - 8) (⟨(readDiv st.mem (p - 8)).size, false, (readDiv st.mem (p - 8)).prev_alloc, (readDiv st.mem (p - 8 + (readDiv st.mem (p - 8)).size)).alloc, (readDiv st.mem (p - 8)).epilogue⟩ : Divider)) (p - 8) = (⟨(readDiv st.mem (p - 8)).size, false, (readDiv st.mem (p - 8)).prev_alloc, (readDiv st.mem (p - 8 + (readDiv st.mem (p - 8)).size)).alloc, (readDiv st.mem (p - 8)).epilogue⟩ : Divider) := readDiv_writeDiv_self _ _ _ hlt
  have hfr : readDiv (writeDiv st.mem (p - 8) (⟨(readDiv st.mem (p - 8)).size, false, (readDiv st.mem (p - 8)).prev_alloc, (readDiv st.mem (p - 8 + (readDiv st.mem (p - 8)).size)).alloc, (readDiv st.mem (p - 8)).epilogue⟩ : Divider)) (p - 8 - 8) = readDiv st.mem (p - 16) := by
    rw [readDiv_writeDiv_out _ _ _ _ (by omega), show p - 8 - 8 = p - 16 from by omega]
  have hpf2 : (⟨(readDiv st.mem (p - 8)).size, false, (readDiv st.mem (p - 8)).prev_alloc, (readDiv st.mem (p - 8 + (readDiv st.mem (p - 8)).size)).alloc, (readDiv st.mem (p - 8)).epilogue⟩ : Divider).prev_alloc = true ∨
      (8 ≤ (readDiv (writeDiv st.mem (p - 8) (⟨(readDiv st.mem (p - 8)).size, false, (readDiv st.mem (p - 8)).prev_alloc, (readDiv st.mem (p - 8 + (readDiv st.mem (p - 8)).size)).alloc, (readDiv st.mem (p - 8)).epilogue⟩ : Divider)) (p - 8 - 8)).size ∧
        (readDiv (writeDiv st.mem (p - 8) (⟨(readDiv st.mem (p - 8)).size, false, (readDiv st.mem (p - 8)).prev_alloc, (readDiv st.mem (p - 8 + (readDiv st.mem (p - 8)).size)).alloc, (readDiv st.mem (p - 8)).epilogue⟩ : Divider)) (p - 8 - 8)).size + 8 ≤ p - 8) := by
    rw [hfr]
    exact hpf
  have HR : readDiv (change_alloc { st with mem := writeDiv st.mem (p - 8) (⟨(readDiv st.mem (p - 8)).size, false, (readDiv st.mem (p - 8)).prev_alloc, (readDiv st.mem (p - 8 + (readDiv st.mem (p - 8)).size)).alloc, (readDiv st.mem (p - 8)).epilogue⟩ : Divider) } (p - 8) (⟨(readDiv st.mem (p - 8)).size, false, (readDiv st.mem (p - 8)).prev_alloc, (readDiv st.mem (p - 8 + (readDiv st.mem (p - 8)).size)).alloc, (readDiv st.mem (p - 8)).epilogue⟩ : Divider)).mem (p - 8) = (⟨(readDiv st.mem (p - 8)).size, false, (readDiv st.mem (p - 8)).prev_alloc, (readDiv st.mem (p - 8 + (readDiv st.mem (p - 8)).size)).alloc, (readDiv st.mem (p - 8)).epilogue⟩ : Divider) :=
    change_alloc_reads_h { st with mem := writeDiv st.mem (p - 8) (⟨(readDiv st.mem (p - 8)).size, false, (readDiv st.mem (p - 8)).prev_alloc, (readDiv st.mem (p - 8 + (readDiv st.mem (p - 8)).size)).alloc, (readDiv st.mem (p - 8)).epilogue⟩ : Divider) } (p - 8) (⟨(readDiv st.mem (p - 8)).size, false, (readDiv st.mem (p - 8)).prev_alloc, (readDiv st.mem (p - 8 + (readDiv st.mem (p - 8)).size)).alloc, (readDiv st.mem (p - 8)).epilogue⟩ : Divider) rfl hsz hlt (by omega) hpf2
  simp only [free_mark, header_from_data, header_to_header, footer_from_header, DIVIDER_SIZE,
    HCD1, E1, HR, Bool.not_false, Bool.not_true, ite_cond_true, ite_cond_false,
    Bool.false_eq_true, if_true, if_false]
  rw [readDiv_writeDiv_out _ _ _ _ (by omega)]
  exact HR


set_option maxHeartbeats 4000000 in
/-- Claim C9: free never merges the epilogue sentinel.  Part one: when
the successor block's header carries alloc true (as the epilogue always
does), the branch free takes never coalesces the successor.  Part two:
mm_init ends the heap with the epilogue divider size 0, A=1, E=1.  Part
three: a successful increase_heap extends the heap by s, hands out the
old epilogue slot, and re-creates the epilogue divider at the new end.
Concretely: freeing the middle of three freed-neighbor blocks does merge
both real neighbors, and the heap still ends with the epilogue divider,
size 0 and A=1 and E=1, whose P bit now reports the free block before
it. -/
theorem claim_C9 :
    (∀ (st : HeapState) (p : Nat),
      24 ≤ p →
      16 ≤ (readDiv st.mem (p - 8)).size →
      ((readDiv st.mem (p - 8)).prev_alloc = true ∨
        (8 ≤ (readDiv st.mem (p - 16)).size ∧ (readDiv st.mem (p - 16)).size + 8 ≤ p - 8)) →
      (readDiv st.mem (p - 8 + (readDiv st.mem (p - 8)).size)).alloc = true →
      free_merges_next st p = false) ∧
    (∀ (m0 : Nat → Nat) (limit : Nat) (stI : HeapState),
      mm_init m0 limit = some stI →
      readDiv stI.mem (stI.brk - 8) = (⟨0, true, true, true, true⟩ : Divider)) ∧
    (∀ (st : HeapState) (s h : Nat) (st2 : HeapState),
      16 ≤ s → s < 2 ^ 60 → 16 ≤ st.brk →
      increase_heap st s = (some h, st2) →
      h = st.brk - 8 ∧ st2.brk = st.brk + s ∧
      readDiv st2.mem (st2.brk - 8) = (⟨0, true, true, true, true⟩ : Divider)) ∧
    free_merges_next c9_u5 c9_u2.1 = true ∧
    (mm_free c9_u5 c9_u2.1).brk = 272 ∧
    readDiv (mm_free c9_u5 c9_u2.1).mem ((mm_free c9_u5 c9_u2.1).brk - 8) =
      (⟨0, true, false, true, true⟩ : Divider) := by
  refine ⟨?_, ?_, ?_, by decide, by decide, by decide⟩
  · intro st p hpge hsz hpf hna
    have HF := free_mark_reads_h st p hpge hsz hpf
    simp only [free_merges_next, header_from_data, header_to_header, DIVIDER_SIZE, HF]
    rw [if_neg (show ¬ p = 0 by omega)]
    simp [hna]
  · intro m0 limit stI hI
    by_cases hok : heap + 2 * DIVIDER_SIZE ≤ limit
    · have hsb : mm_sbrk ⟨m0, heap, limit, fun _ => 0⟩ (2 * DIVIDER_SIZE) =
          (some heap, (⟨m0, heap + 2 * DIVIDER_SIZE, limit, fun _ => 0⟩ : HeapState)) := by
        simp only [mm_sbrk]
        rw [if_pos hok]
      simp only [mm_init, hsb] at hI
      rw [Option.some.injEq] at hI
      subst hI
      dsimp only
      rw [show heap + 2 * DIVIDER_SIZE - 8 = heap + DIVIDER_SIZE from by
        norm_num [heap, DIVIDER_SIZE]]
      rw [readDiv_writeDiv_self _ _ _ (make_divider_size_lt _ _ _ _ _)]
      exact make_divider_eq _ _ _ _ _ (by norm_num)
    · have hsb : mm_sbrk ⟨m0, heap, limit, fun _ => 0⟩ (2 * DIVIDER_SIZE) =
          (none, (⟨m0, heap, limit, fun _ => 0⟩ : HeapState)) := by
        simp only [mm_sbrk]
        rw [if_neg hok]
      simp only [mm_init, hsb] at hI
      exact Option.noConfusion hI
  · intro st s h st2 hs hlt hb hEq
    have HD : make_divider s true true true false = (⟨s, true, true, true, false⟩ : Divider) :=
      make_divider_eq _ _ _ _ _ hlt
    have HE : make_divider 0 true true true true = (⟨0, true, true, true, true⟩ : Divider) :=
      make_divider_eq _ _ _ _ _ (by norm_num)
    by_cases hok : st.brk + s ≤ st.limit
    · have hsb : mm_sbrk st s = (some st.brk, { st with brk := st.brk + s }) := by
        simp only [mm_sbrk]
        rw [if_pos hok]
      have E0 : readDiv (writeDiv st.mem (st.brk - 8) (⟨s, true, true, true, false⟩ : Divider)) (st.brk - 8) = (⟨s, true, true, true, false⟩ : Divider) := readDiv_writeDiv_self _ _ _ hlt
      have E2 : readDiv (writeDiv (writeDiv st.mem (st.brk - 8) (⟨s, true, true, true, false⟩ : Divider)) (st.brk - 8 + s) (⟨0, true, true, true, true⟩ : Divider)) (st.brk - 8) = (⟨s, true, true, true, false⟩ : Divider) := by
        rw [readDiv_writeDiv_out _ _ _ _ (by omega)]
        exact E0
      have E3 : readDiv (writeDiv (writeDiv st.mem (st.brk - 8) (⟨s, true, true, true, false⟩ : Divider)) (st.brk - 8 + s) (⟨0, true, true, true, true⟩ : Divider)) (st.brk - 8 + s) = (⟨0, true, true, true, true⟩ : Divider) :=
        readDiv_writeDiv_self _ _ _ (by norm_num)
      simp only [increase_heap, hsb, DIVIDER_SIZE, header_to_header, HD, HE, E0, E2] at hEq
      rw [Prod.mk.injEq, Option.some.injEq] at hEq
      obtain ⟨h1, h2⟩ := hEq
      subst h2
      refine ⟨h1.symm, rfl, ?_⟩
      have CA := change_alloc_alloc_mem { st with brk := st.brk + s, mem := writeDiv (writeDiv st.mem (st.brk - 8) (⟨s, true, true, true, false⟩ : Divider)) (st.brk - 8 + s) (⟨0, true, true, true, true⟩ : Divider) } (st.brk - 8) (⟨s, true, true, true, false⟩ : Divider) rfl rfl hs hlt
        (Or.inl (by exact congrArg Divider.alloc E3))
      rw [CA.2.1, CA.1]
      dsimp only
      rw [show st.brk + s - 8 = st.brk - 8 + s from by omega]
      simp only [E3, HE]
      exact readDiv_writeDiv_self _ _ _ (by norm_num)
    · have hsb : mm_sbrk st s = (none, st) := by
        simp only [mm_sbrk]
        rw [if_neg hok]
      simp only [increase_heap, hsb] at hEq
      rw [Prod.mk.injEq] at hEq
      exact Option.noConfusion hEq.1

/-- Witness for claim C9: the three general parts applied at concrete
inputs.  The 112-byte block of c8_t1 abuts the epilogue, so freeing it
must not merge forward; mm_init on the fresh heap plants the epilogue at
24; growing the fresh heap by 32 re-plants the epilogue at the new
end. -/
theorem claim_C9_witness :
    free_merges_next c8_t1.2 32 = false ∧
    readDiv stFresh.mem (stFresh.brk - 8) = (⟨0, true, true, true, true⟩ : Divider) ∧
    readDiv (increase_heap stFresh 32).2.mem ((increase_heap stFresh 32).2.brk - 8) =
      (⟨0, true, true, true, true⟩ : Divider) := by
  refine ⟨claim_C9.1 c8_t1.2 32 (by decide) (by decide) (Or.inl (by decide)) (by decide),
    claim_C9.2.1 zeroMem 1000000 stFresh rfl, ?_⟩
  have hq : increase_heap stFresh 32 = (some 24, (increase_heap stFresh 32).2) := by
    rw [← show (increase_heap stFresh 32).1 = some 24 from by decide]
  exact (claim_C9.2.2.1 stFresh 32 24 (increase_heap stFresh 32).2 (by decide) (by decide)
    (by decide) hq).2.2


/-- The free-list walk of find_free_space agrees with the walk as the
specification words it, on any well-formed chain, as long as the best
block carried in is not within the margin (the loop never carries a
within-margin best, for it would have exited on it). -/
theorem scan_free_list_eq_spec_scan (st : HeapState) (size : Nat) :
    ∀ (fuel cur : Nat) (best : Option Nat),
      good_chain st fuel cur = true →
      (∀ b, best = some b →
        ¬ 1000 * (readDiv st.mem (header_from_free_block b)).size ≤ 1225 * size) →
      scan_free_list st size fuel cur best = spec_scan st.mem size fuel cur best := by
  intro fuel
  induction fuel with
  | zero =>
    intro cur best _ _
    rfl
  | succ n ih =>
    intro cur best hg hb
    by_cases hc : cur = 0
    · subst hc
      simp [scan_free_list, spec_scan]
    · simp only [good_chain] at hg
      rw [if_neg hc] at hg
      rw [Bool.and_eq_true, Bool.and_eq_true] at hg
      obtain ⟨⟨hin, hal⟩, hgn⟩ := hg
      simp only [scan_free_list, spec_scan]
      rw [if_neg hc, if_neg hc]
      by_cases hL : size ≤ (readDiv st.mem (header_from_free_block cur)).size
      · have hLd : decide (size ≤ (readDiv st.mem (header_from_free_block cur)).size) = true :=
          decide_eq_true hL
        cases best with
        | none =>
          by_cases hM : 1000 * (readDiv st.mem (header_from_free_block cur)).size ≤ 1225 * size
          · simp [hin, hal, hLd, better_fit, marginOK, hM]
          · simp only [hin, hal, hLd, better_fit, marginOK, decide_eq_false hM, Bool.true_and,
              Bool.and_true, Bool.and_false, Bool.false_eq_true, if_true, if_false,
              ite_cond_true, ite_cond_false]
            exact ih _ _ hgn (by
              intro b hbe
              rw [Option.some.injEq] at hbe
              subst hbe
              exact hM)
        | some b =>
          have hbb := hb b rfl
          by_cases hBd : (readDiv st.mem (header_from_free_block cur)).size <
              (readDiv st.mem (header_from_free_block b)).size
          · by_cases hM : 1000 * (readDiv st.mem (header_from_free_block cur)).size ≤
                1225 * size
            · simp [hin, hal, hLd, better_fit, marginOK, hM, hBd]
            · simp only [hin, hal, hLd, better_fit, marginOK, decide_eq_false hM,
                decide_eq_true hBd, Bool.true_and, Bool.and_true, Bool.and_false,
                Bool.false_eq_true, if_true, if_false, ite_cond_true, ite_cond_false]
              exact ih _ _ hgn (by
                intro c hce
                rw [Option.some.injEq] at hce
                subst hce
                exact hM)
          · have hM : ¬ 1000 * (readDiv st.mem (header_from_free_block cur)).size ≤
                1225 * size := by omega
            simp only [hin, hal, hLd, better_fit, marginOK, decide_eq_false hM,
              decide_eq_false hBd, Bool.true_and, Bool.and_true, Bool.and_false,
              Bool.false_eq_true, if_true, if_false, ite_cond_true, ite_cond_false]
            exact ih _ _ hgn hb
      · have hLd : decide (size ≤ (readDiv st.mem (header_from_free_block cur)).size) = false :=
          decide_eq_false hL
        simp only [hin, hal, hLd, Bool.true_and, Bool.and_false, Bool.false_and,
          Bool.false_eq_true, if_true, if_false, ite_cond_true, ite_cond_false]
        exact ih _ _ hgn hb

/-- Every block the free-list walk returns passed the in-heap, free and
size checks, provided the chain is well formed and the best block
carried in passed them too. -/
theorem scan_free_list_post (st : HeapState) (size : Nat) :
    ∀ (fuel cur : Nat) (best : Option Nat),
      good_chain st fuel cur = true →
      (∀ b, best = some b →
        (in_heap st b && !(readDiv st.mem (header_from_free_block b)).alloc &&
          decide (size ≤ (readDiv st.mem (header_from_free_block b)).size)) = true) →
      ∀ b, scan_free_list st size fuel cur best = some b →
        (in_heap st b && !(readDiv st.mem (header_from_free_block b)).alloc &&
          decide (size ≤ (readDiv st.mem (header_from_free_block b)).size)) = true := by
  intro fuel
  induction fuel with
  | zero =>
    intro cur best _ hbest b hs
    exact hbest b hs
  | succ n ih =>
    intro cur best hg hbest b hs
    by_cases hc : cur = 0
    · subst hc
      simp only [scan_free_list, if_pos rfl] at hs
      exact hbest b hs
    · simp only [good_chain] at hg
      rw [if_neg hc] at hg
      rw [Bool.and_eq_true, Bool.and_eq_true] at hg
      obtain ⟨⟨hin, hal⟩, hgn⟩ := hg
      simp only [scan_free_list] at hs
      rw [if_neg hc] at hs
      by_cases hL : size ≤ (readDiv st.mem (header_from_free_block cur)).size
      · have hcur : (in_heap st cur && !(readDiv st.mem (header_from_free_block cur)).alloc &&
            decide (size ≤ (readDiv st.mem (header_from_free_block cur)).size)) = true := by
          rw [hin, hal, decide_eq_true hL]
          rfl
        rw [if_pos hcur] at hs
        split at hs
        · split at hs
          · rw [Option.some.injEq] at hs
            subst hs
            exact hcur
          · exact ih _ _ hgn (by
              intro c hce
              rw [Option.some.injEq] at hce
              subst hce
              exact hcur) b hs
        · exact ih _ _ hgn hbest b hs
      · rw [if_neg (by
          rw [hin, hal, decide_eq_false hL]
          simp)] at hs
        exact ih _ _ hgn hbest b hs

/-- The class loop of find_free_space computes the amended search: scan
every class whose threshold admits the request, in ascending order, with
class 5 as catch-all, and take the first class that yields a
candidate. -/
theorem find_candidate_go_eq_amended (st : HeapState) (size fuel : Nat)
    (hg : ∀ i : Fin 6, good_chain st fuel (st.freeLists i) = true) :
    ∀ (k i : Nat), find_candidate_go st size fuel k i = amended_search_go st size fuel k i := by
  intro k
  induction k with
  | zero =>
    intro i
    rfl
  | succ n ih =>
    intro i
    simp only [find_candidate_go, amended_search_go]
    split
    · rename_i hi
      split
      · rw [scan_free_list_eq_spec_scan st size fuel (st.freeLists ⟨i, hi⟩) none (hg ⟨i, hi⟩)
          (fun b hb => Option.noConfusion hb)]
        split
        · rename_i b hs
          have hscan : scan_free_list st size fuel (st.freeLists ⟨i, hi⟩) none = some b := by
            rw [scan_free_list_eq_spec_scan st size fuel (st.freeLists ⟨i, hi⟩) none
              (hg ⟨i, hi⟩) (fun b hb => Option.noConfusion hb)]
            exact hs
          have hpost := scan_free_list_post st size fuel (st.freeLists ⟨i, hi⟩) none
            (hg ⟨i, hi⟩) (fun b hb => Option.noConfusion hb) b hscan
          rw [if_pos hpost]
        · exact ih (i + 1)
      · exact ih (i + 1)
    · rfl

/-- The pointer half of find_free_space is the candidate of the pure
class loop, mapped to its header. -/
theorem find_free_space_go_fst (st : HeapState) (size fuel : Nat) :
    ∀ (k i : Nat), (find_free_space_go st size fuel k i).1 =
      Option.map header_from_free_block (find_candidate_go st size fuel k i) := by
  intro k
  induction k with
  | zero =>
    intro i
    rfl
  | succ n ih =>
    intro i
    simp only [find_free_space_go, find_candidate_go]
    split
    · split
      · split
        · split
          · split
            · rfl
            · rfl
          · exact ih (i + 1)
        · exact ih (i + 1)
      · exact ih (i + 1)
    · rfl

/-- Every accepted candidate passed the size re-check, so its header
size is at least the request. -/
theorem find_candidate_go_size (st : HeapState) (size fuel : Nat) :
    ∀ (k i b : Nat), find_candidate_go st size fuel k i = some b →
      size ≤ (readDiv st.mem (header_from_free_block b)).size := by
  intro k
  induction k with
  | zero =>
    intro i b h
    exact Option.noConfusion h
  | succ n ih =>
    intro i b h
    simp only [find_candidate_go] at h
    split at h
    · split at h
      · split at h
        · split at h
          · rename_i hchk
            rw [Option.some.injEq] at h
            subst h
            rw [Bool.and_eq_true, Bool.and_eq_true, decide_eq_true_eq] at hchk
            exact hchk.2
          · exact ih _ _ h
        · exact ih _ _ h
      · exact ih _ _ h
    · exact Option.noConfusion h

/-- Claim C2 counterexample: on stC2 a 33-byte request classes into list
1, which is empty like the catch-all list 5, so the two-class search the
claim describes fails; the allocator's placement search nevertheless
returns the header 24 of the free 64-byte block parked on list 2,
because its loop scans every class whose threshold admits the
request. -/
theorem claim_C2_counterexample :
    find_free_list 33 = 1 ∧
    stC2.freeLists 1 = 0 ∧ stC2.freeLists 5 = 0 ∧ stC2.freeLists 2 = 32 ∧
    claim_search stC2 33 stC2.brk = none ∧
    (find_free_space stC2 33 stC2.brk).1 = some 24 ∧
    (readDiv stC2.mem 24).alloc = false ∧ 33 ≤ (readDiv stC2.mem 24).size := by
  decide

/-- Claim C2 (corrected): whenever the six free lists are well-formed
chains, the pointer the placement search returns is the candidate of the
amended search, which scans, in ascending order, every class whose
threshold admits the request with class 5 as the final catch-all, each
class walked exactly as the claim words it (keep the smallest
sufficient block, exit early within the margin); and any returned
header holds a block of size at least the request. -/
theorem claim_C2 (st : HeapState) (size fuel : Nat)
    (hg : ∀ i : Fin 6, good_chain st fuel (st.freeLists i) = true) :
    (find_free_space st size fuel).1 =
      Option.map header_from_free_block (amended_search st size fuel) ∧
    (∀ ch, (find_free_space st size fuel).1 = some ch →
      size ≤ (readDiv st.mem ch).size) := by
  constructor
  · rw [find_free_space, amended_search, find_free_space_go_fst,
      find_candidate_go_eq_amended st size fuel hg]
  · intro ch hch
    rw [find_free_space, find_free_space_go_fst] at hch
    cases hfc : find_candidate_go st size fuel 6 0 with
    | none =>
      rw [hfc] at hch
      exact Option.noConfusion hch
    | some b =>
      rw [hfc] at hch
      rw [show Option.map header_from_free_block (some b) =
        some (header_from_free_block b) from rfl, Option.some.injEq] at hch
      subst hch
      exact find_candidate_go_size st size fuel 6 0 b hfc

/-- Witness for claim C2 on the concrete heap stC2 with the 33-byte
request: the lists are well-formed chains, the search agrees with the
amended search, and the returned header 24 holds at least 33 bytes. -/
theorem claim_C2_witness :
    (find_free_space stC2 33 stC2.brk).1 =
      Option.map header_from_free_block (amended_search stC2 33 stC2.brk) ∧
    33 ≤ (readDiv stC2.mem 24).size := by
  have H := claim_C2 stC2 33 stC2.brk (by decide)
  exact ⟨H.1, H.2 24 (by decide)⟩

end MM
